import Mathlib

/-!
Verification development for the "tesla-energy-explain" repository.

The repository's core is three deterministic algorithms over a synthetic
one-day energy profile sampled every 5 minutes:
  * the story-day generator (`src/data/storyDay.ts`),
  * the explanation engine (`src/logic/explainEngine.ts`),
  * the what-if replay simulator (the replay module of `src/logic`).

Numbers are embedded as exact rationals (`ℚ`).  JavaScript's
`Number(x.toFixed(d))` rounds to the nearest multiple of `10^(-d)` with
ties away from the smaller value (toward the larger candidate), which is
exactly `round (x * 10^d) / 10^d` with Mathlib's `round` (floor of
`x + 1/2`).  `Math.round` is the same rounding at `d = 0`.

The generator's solar and home-load curves are closed-form expressions in
`sin`, `exp` and `pow` plus a sine-hash pseudo-noise; those transcendental
values are not representable exactly, so they enter the embedding as an
opaque environment (`DayEnv`): one rational per sample index standing for
the pre-clamp value of each curve.  Every clamp, rounding step, policy
branch and state update of the source is embedded literally, so theorems
quantified over the environment hold in particular for the real day.
-/

namespace TeslaExplain

/-- `clamp(value, min, max)` from both source modules:
`Math.min(max, Math.max(min, value))`. -/
def clampQ (value lo hi : ℚ) : ℚ := min hi (max lo value)

/-- `round(value, decimals) = Number(value.toFixed(decimals))` from the
source: round to `decimals` decimal places, ties toward the larger value. -/
def roundDec (decimals : ℕ) (value : ℚ) : ℚ :=
  (round (value * 10 ^ decimals) : ℤ) / 10 ^ decimals

/-- Truncation toward zero, the rounding used by JavaScript's `%`. -/
def qtrunc (q : ℚ) : ℤ := if 0 ≤ q then ⌊q⌋ else ⌈q⌉

/-- JavaScript's remainder operator `x % y` on numbers: the remainder of
truncating division, with the sign of the dividend. -/
def jsRem (x y : ℚ) : ℚ := x - y * qtrunc (x / y)

/-- `clampToStep(minute, step)` from `src/utils/time.ts`:
`Math.round(minute / step) * step`, identity for `step ≤ 0`. -/
def clampToStep (minute step : ℚ) : ℚ :=
  if step ≤ 0 then minute else (round (minute / step) : ℤ) * step

/-- `normalizeMinute` from `src/utils/time.ts`: wrap into `[0, 1440)`. -/
def normalizeMinute (minute : ℚ) : ℚ :=
  let wrapped := jsRem minute 1440
  if wrapped < 0 then wrapped + 1440 else wrapped

/-- Left-pad a string with `'0'` up to length `n`
(JavaScript `String.prototype.padStart(n, "0")`). -/
def padZeros (s : String) (n : ℕ) : String :=
  if s.length < n then String.mk (List.replicate (n - s.length) '0') ++ s else s

/-- Least `k` (searched with the given fuel) such that `d` divides `10^k`:
the number of decimal digits needed to write a fraction with denominator
`d` exactly. -/
def decPowAux (d : ℕ) (k : ℕ) : ℕ → Option ℕ
  | 0 => none
  | fuel + 1 => if d ∣ 10 ^ k then some k else decPowAux d (k + 1) fuel

/-- JavaScript number-to-string conversion (template literals, `String(x)`)
restricted to the values this program prints: exact decimal fractions are
printed as their shortest decimal form, integers without a decimal point. -/
def numToStr (q : ℚ) : String :=
  let sign := if q < 0 then "-" else ""
  let n := |q|.num.toNat
  let d := |q|.den
  if d = 1 then sign ++ toString n
  else
    match decPowAux d 0 31 with
    | some k =>
        let m := n * (10 ^ k / d)
        sign ++ toString (m / 10 ^ k) ++ "." ++ padZeros (toString (m % 10 ^ k)) k
    | none => sign ++ toString n ++ "/" ++ toString d

/-- `minutesToLabel` from `src/utils/time.ts`: 12-hour clock label such as
`"5:00 PM"`. -/
def minutesToLabel (minute : ℚ) : String :=
  let normalized := normalizeMinute minute
  let hours24 : ℤ := ⌊normalized / 60⌋
  let mins := jsRem normalized 60
  let meridiem := if 12 ≤ hours24 then "PM" else "AM"
  let hours12 : ℤ := if hours24 % 12 = 0 then 12 else hours24 % 12
  let minsLabel := padZeros (numToStr mins) 2
  toString hours12 ++ ":" ++ minsLabel ++ " " ++ meridiem

/-- `splitLabel` from `src/utils/time.ts`: the time part of a label. -/
def splitLabelTime (label : String) : String := (label.splitOn " ").getD 0 ""

/-- `splitLabel` from `src/utils/time.ts`: the meridiem part of a label. -/
def splitLabelMeridiem (label : String) : String := (label.splitOn " ").getD 1 ""

/-- `formatWindow` from `src/utils/time.ts`. -/
def formatWindow (startMin endMin : ℚ) : String :=
  let s := minutesToLabel startMin
  let e := minutesToLabel endMin
  if splitLabelMeridiem s = splitLabelMeridiem e then
    splitLabelTime s ++ "–" ++ splitLabelTime e ++ " " ++ splitLabelMeridiem e
  else
    splitLabelTime s ++ " " ++ splitLabelMeridiem s ++ "–" ++
      splitLabelTime e ++ " " ++ splitLabelMeridiem e

/-- `TimeWindow` from `src/data/storyDay.ts`. -/
structure TimeWindowQ where
  startMin : ℚ
  endMin : ℚ
  deriving DecidableEq

/-- `StorySample` from `src/data/storyDay.ts`. -/
structure StorySample where
  ts : ℚ
  solarKw : ℚ
  homeKw : ℚ
  batteryKw : ℚ
  gridKw : ℚ
  socPct : ℚ
  deriving DecidableEq

/-- `ExplainContext` from `src/logic/explainEngine.ts` (the TypeScript
string-literal union for the mode is embedded as `String`). -/
structure ExplainContext where
  mode : String
  backupReservePct : ℚ
  peakWindow : TimeWindowQ
  stormWatchWindow : TimeWindowQ
  stormWatchEnabled : Bool
  deriving DecidableEq

/-- `storyDayContext` from `src/data/storyDay.ts` (the fields consumed by
the algorithms; the demo note string is presentation-only). -/
def storyDayContext : ExplainContext :=
  { mode := "Time-Based Control"
    backupReservePct := 30
    peakWindow := ⟨17 * 60, 21 * 60⟩
    stormWatchWindow := ⟨20 * 60 + 30, 21 * 60 + 15⟩
    stormWatchEnabled := true }

/-- `isInWindow` from `src/data/storyDay.ts`. -/
def isInWindow (minute : ℚ) (w : TimeWindowQ) : Prop :=
  w.startMin ≤ minute ∧ minute < w.endMin

instance (minute : ℚ) (w : TimeWindowQ) : Decidable (isInWindow minute w) :=
  inferInstanceAs (Decidable (_ ∧ _))

/-- The opaque environment for the story-day generator: the pre-clamp
closed-form values of the solar and home-load curves at each sample index
(`base * cloudDip + noise` in `solarKwAt`, and
`baseline + morning + midday + evening + late + noise` in `homeKwAt`).
These are transcendental in the source (`Math.sin`, `Math.exp`,
`Math.pow`); the embedding treats them as arbitrary rationals and applies
the source's clamps literally, so every theorem quantified over a `DayEnv`
covers the actual generated day. -/
structure DayEnv where
  solarShape : ℕ → ℚ
  homeShape : ℕ → ℚ

/-- `solarKwAt(minute, index)` from `src/data/storyDay.ts`: zero outside
the sunrise–sunset window `[420, 1110]`, otherwise the closed-form curve
clamped to `[0, 7]`. -/
def solarKwAt (env : DayEnv) (minute : ℚ) (index : ℕ) : ℚ :=
  if minute < 7 * 60 ∨ minute > 18 * 60 + 30 then 0
  else clampQ (env.solarShape index) 0 7

/-- `homeKwAt(minute, index)` from `src/data/storyDay.ts`: the closed-form
curve clamped to `[0.55, 3.6]` (the minute-dependence lives inside the
opaque shape; `minute = 5 * index` at every call site). -/
def homeKwAt (env : DayEnv) (_minute : ℚ) (index : ℕ) : ℚ :=
  clampQ (env.homeShape index) 0.55 3.6

/-- `batteryTargetKw(minute, socPct, solarKw, homeKw)` from
`src/data/storyDay.ts`. -/
def batteryTargetKw (minute socPct solarKw homeKw : ℚ) : ℚ :=
  if storyDayContext.stormWatchEnabled ∧
      isInWindow minute storyDayContext.stormWatchWindow then
    if socPct < 70 then 2.8
    else if socPct < 77 then 1.9
    else 0.9
  else if isInWindow minute storyDayContext.peakWindow then
    if socPct ≤ storyDayContext.backupReservePct + 2 then 0
    else
      -(min (if minute < 19 * 60 then 2.9 else 1.7)
            (max 0.25 (homeKw - solarKw + 0.25)))
  else if (9 * 60 ≤ minute ∧ minute < 16 * 60 + 30) ∧
      solarKw - homeKw > 0.2 ∧ socPct < 94 then
    min 3.6 ((solarKw - homeKw) * (if socPct < 88 then 0.9 else 0.35))
  else if (minute < 5 * 60 ∨ minute ≥ 22 * 60) ∧ socPct > 56 then -0.2
  else if (5 * 60 ≤ minute ∧ minute < 7 * 60) ∧ socPct > 54 then -0.1
  else 0

/-- `clampBatteryBySoc(targetKw, socPct)` from `src/data/storyDay.ts`:
bound the target power by the charge/discharge headroom one 5-minute step
allows, given the 13.5 kWh capacity and the 30 % reserve floor. -/
def clampBatteryBySoc (targetKw socPct : ℚ) : ℚ :=
  let maxChargeKw := ((100 - socPct) / 100) * 13.5 / (5 / 60)
  let maxDischargeKw :=
    ((socPct - storyDayContext.backupReservePct) / 100) * 13.5 / (5 / 60)
  if targetKw > 0 then min targetKw (max 0 maxChargeKw)
  else if targetKw < 0 then -(min |targetKw| (max 0 maxDischargeKw))
  else 0

/-- One iteration of the generator loop in `buildStoryDaySamples`
(`src/data/storyDay.ts`): the stored sample and the updated running SOC. -/
def storyStep (env : DayEnv) (index : ℕ) (socPct : ℚ) : StorySample × ℚ :=
  let minute : ℚ := index * 5
  let solarKw := roundDec 2 (solarKwAt env minute index)
  let homeKw := roundDec 2 (homeKwAt env minute index)
  let target0 := batteryTargetKw minute socPct solarKw homeKw
  let target :=
    if target0 > 0 ∧ ¬ isInWindow minute storyDayContext.stormWatchWindow then
      min target0 (max 0 (solarKw - homeKw))
    else target0
  let batteryKw := roundDec 2 (clampBatteryBySoc target socPct)
  let gridKw := roundDec 2 (homeKw - solarKw + batteryKw)
  let socDelta := batteryKw * (5 / 60) / 13.5 * 100
  let socPct' :=
    clampQ (socPct + socDelta) storyDayContext.backupReservePct 100
  (⟨minute, solarKw, homeKw, batteryKw, gridKw, roundDec 1 socPct'⟩, socPct')

/-- The generator loop of `buildStoryDaySamples`, producing `count`
samples starting at `index` with running state `socPct`. -/
def buildFrom (env : DayEnv) (index : ℕ) (socPct : ℚ) : ℕ → List StorySample
  | 0 => []
  | count + 1 =>
      let step := storyStep env index socPct
      step.1 :: buildFrom env (index + 1) step.2 count

/-- `buildStoryDaySamples()` from `src/data/storyDay.ts`: 288 samples,
starting SOC 62 %. -/
def buildStoryDaySamples (env : DayEnv) : List StorySample :=
  buildFrom env 0 62 288

/-- `getSamplesInWindow(startMin, endMin)` from `src/data/storyDay.ts`:
snap both bounds to the 5-minute grid, clamp them into `[0, 1440]`,
normalize their order, then filter the story day half-open. -/
def getSamplesInWindow (env : DayEnv) (startMin endMin : ℚ) :
    List StorySample :=
  let roundedStart := clampQ (clampToStep startMin 5) 0 (24 * 60)
  let roundedEnd := clampQ (clampToStep endMin 5) 0 (24 * 60)
  let safeStart := min roundedStart roundedEnd
  let safeEnd := max roundedStart roundedEnd
  (buildStoryDaySamples env).filter fun sample =>
    decide (safeStart ≤ sample.ts ∧ sample.ts < safeEnd)

/-- The reason-code union from `src/logic/explainEngine.ts`. -/
inductive ReasonCode where
  | TBC_PEAK_AVOIDANCE
  | SOLAR_SURPLUS_CHARGE
  | BACKUP_RESERVE_PROTECTION
  | STORM_WATCH_PRECHARGE
  | EXPORTING_SURPLUS
  | HOLDING_CHARGE
  deriving DecidableEq

/-- The confidence union `"High" | "Medium" | "Low"`. -/
inductive Confidence where
  | High
  | Medium
  | Low
  deriving DecidableEq

/-- `ExplainReason` from `src/logic/explainEngine.ts`. -/
structure ExplainReason where
  code : ReasonCode
  title : String
  confidence : Confidence
  evidence : List String
  deriving DecidableEq

/-- `ExplainEvent` from `src/logic/explainEngine.ts` (the event-type
string union is embedded as `String`). -/
structure ExplainEvent where
  id : String
  tsMin : ℚ
  title : String
  type : String
  whatHappened : String
  reasons : List ExplainReason
  deriving DecidableEq

/-- `ExplainSummary` from `src/logic/explainEngine.ts`. -/
structure ExplainSummary where
  startSoc : ℚ
  endSoc : ℚ
  minSoc : ℚ
  maxSoc : ℚ
  totalGridImportKwhApprox : ℚ
  totalGridExportKwhApprox : ℚ
  totalBatteryChargeKwhApprox : ℚ
  totalBatteryDischargeKwhApprox : ℚ
  deriving DecidableEq

/-- `BaseReason` from `src/logic/explainEngine.ts`. -/
structure BaseReason where
  title : String
  confidence : Confidence
  deriving DecidableEq

/-- `reasonCatalog` from `src/logic/explainEngine.ts`. -/
def reasonCatalog : ReasonCode → BaseReason
  | .TBC_PEAK_AVOIDANCE =>
      ⟨"Peak avoidance in Time-Based Control", .High⟩
  | .SOLAR_SURPLUS_CHARGE =>
      ⟨"Charging from solar surplus", .High⟩
  | .BACKUP_RESERVE_PROTECTION =>
      ⟨"Reserve protection near backup threshold", .Medium⟩
  | .STORM_WATCH_PRECHARGE =>
      ⟨"Storm Watch pre-charge behavior", .High⟩
  | .EXPORTING_SURPLUS =>
      ⟨"Exporting excess energy", .Medium⟩
  | .HOLDING_CHARGE =>
      ⟨"Holding battery level", .Low⟩

/-- The result record of `overlapsWindow` from `src/logic/explainEngine.ts`
(`end` is a reserved word in Lean, so that field is named `stop`). -/
structure OverlapInfo where
  overlaps : Bool
  start : ℚ
  stop : ℚ
  deriving DecidableEq

/-- `overlapsWindow(startMin, endMin, window)` from
`src/logic/explainEngine.ts`. -/
def overlapsWindow (startMin endMin : ℚ) (window : TimeWindowQ) :
    OverlapInfo :=
  let overlapStart := max startMin window.startMin
  let overlapEnd := min endMin window.endMin
  ⟨decide (overlapStart < overlapEnd), overlapStart, overlapEnd⟩

/-- `average(samples, picker)` from `src/logic/explainEngine.ts`. -/
def average (samples : List StorySample) (picker : StorySample → ℚ) : ℚ :=
  if samples.length = 0 then 0
  else (samples.map picker).sum / samples.length

/-- `buildReason(code, evidence, confidence?)` from
`src/logic/explainEngine.ts`. -/
def buildReason (code : ReasonCode) (evidence : List String)
    (confidence : Option Confidence) : ExplainReason :=
  let base := reasonCatalog code
  ⟨code, base.title, confidence.getD base.confidence, evidence.take 3⟩

/-- `findFirstSample(samples, predicate, fallbackMin)` from
`src/logic/explainEngine.ts`. -/
def findFirstSample (samples : List StorySample)
    (predicate : StorySample → Bool) (fallbackMin : ℚ) : ℚ :=
  match samples.find? predicate with
  | some m => m.ts
  | none => fallbackMin

/-- The loop of `hasConsecutiveGridExport` from
`src/logic/explainEngine.ts`, with the running state (current run length
and the timestamp the current run started at) explicit. -/
def exportLoop (minRunLength : ℕ) :
    List StorySample → ℕ → Option ℚ → Option ℚ
  | [], _, _ => none
  | sample :: rest, run, runStart =>
      if sample.gridKw < -0.6 then
        let runStart' := some (runStart.getD sample.ts)
        if minRunLength ≤ run + 1 then runStart'
        else exportLoop minRunLength rest (run + 1) runStart'
      else exportLoop minRunLength rest 0 none

/-- `hasConsecutiveGridExport(samples, minRunLength)` from
`src/logic/explainEngine.ts`: the start timestamp of the first run of
`minRunLength` consecutive samples with `gridKw < -0.6`, if any. -/
def hasConsecutiveGridExport (samples : List StorySample)
    (minRunLength : ℕ) : Option ℚ :=
  exportLoop minRunLength samples 0 none

/-- The forward probing loop of `ensureUniqueTimestamp`
(`while (usedTs.has(ts) && ts <= upperBound) ts += 5`).  The loop body can
only run while the current value is a member of `usedTs`, and the probed
values strictly increase, so it runs at most `usedTs.length` times; the
explicit fuel `usedTs.length + 1` therefore reproduces the loop exactly. -/
def probeForward (usedTs : List ℚ) (upperBound : ℚ) :
    ℕ → ℚ → ℚ
  | 0, ts => ts
  | fuel + 1, ts =>
      if ts ∈ usedTs ∧ ts ≤ upperBound then
        probeForward usedTs upperBound fuel (ts + 5)
      else ts

/-- The backward probing loop of `ensureUniqueTimestamp`
(`while (usedTs.has(ts) && ts >= startMin) ts -= 5`), fueled like
`probeForward`. -/
def probeBackward (usedTs : List ℚ) (startMin : ℚ) :
    ℕ → ℚ → ℚ
  | 0, ts => ts
  | fuel + 1, ts =>
      if ts ∈ usedTs ∧ startMin ≤ ts then
        probeBackward usedTs startMin fuel (ts - 5)
      else ts

/-- `ensureUniqueTimestamp(proposedTs, usedTs, startMin, endMin)` from
`src/logic/explainEngine.ts` (the `Set<number>` is embedded as the list of
timestamps added so far). -/
def ensureUniqueTimestamp (proposedTs : ℚ) (usedTs : List ℚ)
    (startMin endMin : ℚ) : ℚ :=
  let upperBound := max startMin (endMin - 5)
  let ts0 := clampQ proposedTs startMin upperBound
  let ts1 := probeForward usedTs upperBound (usedTs.length + 1) ts0
  let ts2 := probeBackward usedTs startMin (usedTs.length + 1) ts1
  clampQ ts2 startMin upperBound

/-- `getWindowSamples(samples, startMin, endMin)` from
`src/logic/explainEngine.ts`: normalize the bound order, then keep the
samples in the half-open range. -/
def getWindowSamples (samples : List StorySample) (startMin endMin : ℚ) :
    List StorySample :=
  samples.filter fun sample =>
    decide (min startMin endMin ≤ sample.ts ∧
      sample.ts < max startMin endMin)

/-- `summarizeWindow(samples, _context)` from `src/logic/explainEngine.ts`.
The empty input returns the all-zero summary.  On a nonempty input the
source folds `minSoc`/`maxSoc` starting from `±Infinity`; folding from the
head sample's SOC is the same fold after its first step. -/
def summarizeWindow (samples : List StorySample)
    (_context : ExplainContext) : ExplainSummary :=
  match samples with
  | [] => ⟨0, 0, 0, 0, 0, 0, 0, 0⟩
  | s0 :: rest =>
      let all := s0 :: rest
      let gridImport := (all.map fun s => max s.gridKw 0 * (5 / 60)).sum
      let gridExport := (all.map fun s => max (-s.gridKw) 0 * (5 / 60)).sum
      let batteryCharge :=
        (all.map fun s => max s.batteryKw 0 * (5 / 60)).sum
      let batteryDischarge :=
        (all.map fun s => max (-s.batteryKw) 0 * (5 / 60)).sum
      let minSoc := rest.foldl (fun acc s => min acc s.socPct) s0.socPct
      let maxSoc := rest.foldl (fun acc s => max acc s.socPct) s0.socPct
      { startSoc := roundDec 1 s0.socPct
        endSoc := roundDec 1 (rest.getLastD s0).socPct
        minSoc := roundDec 1 minSoc
        maxSoc := roundDec 1 maxSoc
        totalGridImportKwhApprox := roundDec 2 gridImport
        totalGridExportKwhApprox := roundDec 2 gridExport
        totalBatteryChargeKwhApprox := roundDec 2 batteryCharge
        totalBatteryDischargeKwhApprox := roundDec 2 batteryDischarge }

/-- A raw detector event before post-processing: the element type of the
`rawEvents` array in `buildExplainTimeline`. -/
structure RawEvent where
  proposedTsMin : ℚ
  type : String
  title : String
  whatHappened : String
  reasons : List ExplainReason
  deriving DecidableEq

/-- The peak-overlap detector of `buildExplainTimeline`
(`src/logic/explainEngine.ts`): the conditional `push` of the
"Peak rate period" event, as a zero-or-one-element list. -/
def peakEvents (samplesAll : List StorySample) (context : ExplainContext)
    (startMin endMin : ℚ) : List RawEvent :=
  let windowSamples := getWindowSamples samplesAll startMin endMin
  let avgBatteryKw := average windowSamples (·.batteryKw)
  let peakOverlap := overlapsWindow startMin endMin context.peakWindow
  (if peakOverlap.overlaps then
    [{ proposedTsMin := peakOverlap.start
       type := "rate"
       title := "Peak rate period"
       whatHappened :=
         "Peak period started. System prioritized reducing grid usage."
       reasons :=
         [buildReason .TBC_PEAK_AVOIDANCE
           ["Mode: " ++ context.mode ++ ".",
            "Selected window overlaps peak period (" ++
              formatWindow context.peakWindow.startMin
                context.peakWindow.endMin ++ ").",
            "Battery average power was " ++
              numToStr (roundDec 2 avgBatteryKw) ++
              " kW in this selection."] none] }]
  else [])

/-- The storm-overlap detector of `buildExplainTimeline`. -/
def stormEvents (samplesAll : List StorySample) (context : ExplainContext)
    (startMin endMin : ℚ) : List RawEvent :=
  let windowSamples := getWindowSamples samplesAll startMin endMin
  let summary := summarizeWindow windowSamples context
  let stormOverlap := overlapsWindow startMin endMin context.stormWatchWindow
  (if stormOverlap.overlaps ∧ context.stormWatchEnabled then
    [{ proposedTsMin := stormOverlap.start
       type := "storm"
       title := "Storm Watch"
       whatHappened :=
         "Storm Watch engaged. Powerwall increased charge to improve backup readiness."
       reasons :=
         [buildReason .STORM_WATCH_PRECHARGE
           ["Storm Watch is enabled in site settings.",
            "Window overlaps Storm Watch (" ++
              formatWindow context.stormWatchWindow.startMin
                context.stormWatchWindow.endMin ++ ").",
            "SOC moved " ++ numToStr (roundDec 1 summary.startSoc) ++
              "% → " ++ numToStr (roundDec 1 summary.endSoc) ++
              "% in selection."] none] }]
  else [])

/-- The net-charging detector of `buildExplainTimeline`. -/
def chargeEvents (samplesAll : List StorySample) (context : ExplainContext)
    (startMin endMin : ℚ) : List RawEvent :=
  let windowSamples := getWindowSamples samplesAll startMin endMin
  let summary := summarizeWindow windowSamples context
  let avgBatteryKw := average windowSamples (·.batteryKw)
  let avgSolarKw := average windowSamples (·.solarKw)
  let avgHomeKw := average windowSamples (·.homeKw)
  let stormOverlap := overlapsWindow startMin endMin context.stormWatchWindow
  (if avgBatteryKw > 0.4 then
    [{ proposedTsMin :=
         findFirstSample windowSamples
           (fun sample => decide (sample.batteryKw > 0.4)) startMin
       type := "battery"
       title := "Battery charging"
       whatHappened := "Powerwall was mostly charging during the selected period."
       reasons :=
         (let reasons0 :=
           (if stormOverlap.overlaps ∧ context.stormWatchEnabled then
             [buildReason .STORM_WATCH_PRECHARGE
               ["Charging occurred while Storm Watch interval was active.",
                "Average battery power was +" ++
                  numToStr (roundDec 2 avgBatteryKw) ++ " kW."] none]
           else []) ++
           (if avgSolarKw > avgHomeKw + 0.3 then
             [buildReason .SOLAR_SURPLUS_CHARGE
               ["Average solar " ++ numToStr (roundDec 2 avgSolarKw) ++
                  " kW exceeded home load " ++
                  numToStr (roundDec 2 avgHomeKw) ++ " kW.",
                "Battery charged about " ++
                  numToStr summary.totalBatteryChargeKwhApprox ++
                  " kWh in this window."]
               (some (if stormOverlap.overlaps then .Medium else .High))]
           else [])
         if reasons0.isEmpty then
           [buildReason .HOLDING_CHARGE
             ["Battery stayed net charging at +" ++
                numToStr (roundDec 2 avgBatteryKw) ++ " kW.",
              "SOC increased from " ++ numToStr summary.startSoc ++
                "% to " ++ numToStr summary.endSoc ++
                "% during the selected period."] none]
         else reasons0) }]
  else [])

/-- The net-discharging detector of `buildExplainTimeline`. -/
def dischargeEvents (samplesAll : List StorySample)
    (context : ExplainContext) (startMin endMin : ℚ) : List RawEvent :=
  let windowSamples := getWindowSamples samplesAll startMin endMin
  let summary := summarizeWindow windowSamples context
  let avgBatteryKw := average windowSamples (·.batteryKw)
  let peakOverlap := overlapsWindow startMin endMin context.peakWindow
  (if avgBatteryKw < -0.4 then
    [{ proposedTsMin :=
         findFirstSample windowSamples
           (fun sample => decide (sample.batteryKw < -0.4)) startMin
       type := "battery"
       title := "Battery discharging"
       whatHappened := "Powerwall supplied home demand to reduce grid dependence."
       reasons :=
         (let reasons0 :=
           (if peakOverlap.overlaps then
             [buildReason .TBC_PEAK_AVOIDANCE
               ["Selection overlaps peak period (" ++
                  formatWindow context.peakWindow.startMin
                    context.peakWindow.endMin ++ ").",
                "Battery average power was " ++
                  numToStr (roundDec 2 avgBatteryKw) ++
                  " kW (discharging)."] none]
           else []) ++
           (if summary.minSoc ≤ context.backupReservePct + 2 then
             [buildReason .BACKUP_RESERVE_PROTECTION
               ["Backup reserve is " ++ numToStr context.backupReservePct ++
                  "%.",
                "SOC approached reserve. Minimum observed " ++
                  numToStr summary.minSoc ++ "%."] (some .Medium)]
           else [])
         if reasons0.isEmpty then
           [buildReason .HOLDING_CHARGE
             ["Battery delivered about " ++
                numToStr summary.totalBatteryDischargeKwhApprox ++
                " kWh in this window.",
              "SOC declined " ++ numToStr summary.startSoc ++ "% → " ++
                numToStr summary.endSoc ++ "%."] none]
         else reasons0) }]
  else [])

/-- The export-run detector of `buildExplainTimeline`. -/
def exportEvents (samplesAll : List StorySample)
    (context : ExplainContext) (startMin endMin : ℚ) : List RawEvent :=
  let windowSamples := getWindowSamples samplesAll startMin endMin
  let summary := summarizeWindow windowSamples context
  let avgSolarKw := average windowSamples (·.solarKw)
  let avgHomeKw := average windowSamples (·.homeKw)
  (match hasConsecutiveGridExport windowSamples 3 with
   | some exportRunStart =>
      [{ proposedTsMin := exportRunStart
         type := "grid"
         title := "Exporting to grid"
         whatHappened :=
           "Solar production exceeded site demand and excess energy was exported."
         reasons :=
           [buildReason .EXPORTING_SURPLUS
             ["At least 15 minutes of consecutive grid export was observed.",
              "Average solar " ++ numToStr (roundDec 2 avgSolarKw) ++
                " kW vs home " ++ numToStr (roundDec 2 avgHomeKw) ++ " kW.",
              "Approx export in selection: " ++
                numToStr summary.totalGridExportKwhApprox ++ " kWh."]
             (some (if summary.totalGridExportKwhApprox > 0.5 then .High
               else .Medium))] }]
   | none => [])

/-- The hold-steady detector of `buildExplainTimeline`. -/
def holdEvents (samplesAll : List StorySample) (context : ExplainContext)
    (startMin endMin : ℚ) : List RawEvent :=
  let windowSamples := getWindowSamples samplesAll startMin endMin
  let summary := summarizeWindow windowSamples context
  let avgBatteryKw := average windowSamples (·.batteryKw)
  let avgSolarKw := average windowSamples (·.solarKw)
  let avgHomeKw := average windowSamples (·.homeKw)
  (if |avgBatteryKw| < 0.25 ∧ avgSolarKw > avgHomeKw + 0.25 then
    [{ proposedTsMin :=
         findFirstSample windowSamples (fun _ => true) startMin
       type := "solar"
       title := "Holding battery level"
       whatHappened :=
         "Battery power stayed near neutral while solar carried most of the load."
       reasons :=
         [buildReason .HOLDING_CHARGE
           ["Average battery power stayed near " ++
              numToStr (roundDec 2 avgBatteryKw) ++ " kW.",
            "SOC remained within " ++ numToStr summary.minSoc ++ "% to " ++
              numToStr summary.maxSoc ++ "% during this selection.",
            "Solar remained above home load on average (" ++
              numToStr (roundDec 2 avgSolarKw) ++ " vs " ++
              numToStr (roundDec 2 avgHomeKw) ++ " kW)."] (some .Medium)] }]
  else [])

/-- The detector section of `buildExplainTimeline`
(`src/logic/explainEngine.ts`): the `rawEvents` array as filled by the
six conditional `push` calls in source order, before the no-detector
fallback. -/
def detectorEvents (samplesAll : List StorySample)
    (context : ExplainContext) (startMin endMin : ℚ) : List RawEvent :=
  peakEvents samplesAll context startMin endMin ++
    stormEvents samplesAll context startMin endMin ++
    chargeEvents samplesAll context startMin endMin ++
    dischargeEvents samplesAll context startMin endMin ++
    exportEvents samplesAll context startMin endMin ++
    holdEvents samplesAll context startMin endMin

/-- The `rawEvents` array of `buildExplainTimeline` after the fallback:
when no detector fired, a single "Stable operation" info event anchored at
the window start. -/
def rawEvents (samplesAll : List StorySample) (context : ExplainContext)
    (startMin endMin : ℚ) : List RawEvent :=
  let windowSamples := getWindowSamples samplesAll startMin endMin
  let summary := summarizeWindow windowSamples context
  let avgBatteryKw := average windowSamples (·.batteryKw)
  let detected := detectorEvents samplesAll context startMin endMin
  if detected.isEmpty then
    [{ proposedTsMin := startMin
       type := "info"
       title := "Stable operation"
       whatHappened := "No major state transitions were detected in this window."
       reasons :=
         [buildReason .HOLDING_CHARGE
           ["Window: " ++ formatWindow startMin endMin ++ ".",
            "SOC changed " ++ numToStr summary.startSoc ++ "% → " ++
              numToStr summary.endSoc ++ "%.",
            "Average battery power " ++
              numToStr (roundDec 2 avgBatteryKw) ++ " kW."] none] }]
  else detected

/-- The first post-processing map of `buildExplainTimeline`: assign each
raw event its deduplicated timestamp (tracking the `usedTimestamps` set as
the list of timestamps assigned so far) and its provisional id. -/
def normalizePass (startMin endMin : ℚ) :
    List RawEvent → List ℚ → ℕ → List ExplainEvent
  | [], _, _ => []
  | event :: rest, usedTs, index =>
      let tsMin := ensureUniqueTimestamp event.proposedTsMin usedTs
        startMin endMin
      { id := numToStr tsMin ++ "-" ++ toString index
        tsMin := tsMin
        title := event.title
        type := event.type
        whatHappened := event.whatHappened
        reasons := event.reasons } ::
        normalizePass startMin endMin rest (tsMin :: usedTs) (index + 1)

/-- Stable insertion into a list sorted by `tsMin`: the new element goes
after every element whose timestamp is `≤` its own. -/
def insertEvent (event : ExplainEvent) :
    List ExplainEvent → List ExplainEvent
  | [] => [event]
  | head :: tail =>
      if event.tsMin < head.tsMin then event :: head :: tail
      else head :: insertEvent event tail

/-- The `.sort((a, b) => a.tsMin - b.tsMin)` step: JavaScript's sort is
stable, so it is the stable insertion sort on `tsMin`. -/
def sortByTs (events : List ExplainEvent) : List ExplainEvent :=
  events.foldl (fun acc event => insertEvent event acc) []

/-- The evidence line `` `Event time: ${minutesToLabel(event.tsMin)}.` ``
appended by the final map of `buildExplainTimeline`. -/
def timeLabel (tsMin : ℚ) : String :=
  "Event time: " ++ minutesToLabel tsMin ++ "."

/-- The final map of `buildExplainTimeline`: rebuild each id from the
event type, timestamp and position, and append the event-time evidence
line to every reason, re-capping the evidence at 3 entries. -/
def finalPass : ℕ → List ExplainEvent → List ExplainEvent
  | _, [] => []
  | index, event :: rest =>
      { event with
        id := event.type ++ "-" ++ numToStr event.tsMin ++ "-" ++
          toString index
        reasons := event.reasons.map fun reason =>
          { reason with
            evidence := (reason.evidence ++ [timeLabel event.tsMin]).take 3 }
      } :: finalPass (index + 1) rest

/-- `buildExplainTimeline(samplesAll, context, startMin, endMin)` from
`src/logic/explainEngine.ts`. -/
def buildExplainTimeline (samplesAll : List StorySample)
    (context : ExplainContext) (startMin endMin : ℚ) : List ExplainEvent :=
  let windowSamples := getWindowSamples samplesAll startMin endMin
  if windowSamples.isEmpty then []
  else
    finalPass 0
      ((sortByTs (normalizePass startMin endMin
        (rawEvents samplesAll context startMin endMin) [] 0)).take 10)

/-- `ReplayOverrides` from the replay module (optional fields; the mode
string-literal union is embedded as `String`). -/
structure ReplayOverrides where
  backupReservePct : Option ℚ
  mode : Option String
  peakStartMin : Option ℚ
  deriving DecidableEq

/-- `ReplaySummary` from the replay module. -/
structure ReplaySummary where
  startSoc : ℚ
  endSoc : ℚ
  totalGridImportKwhApprox : ℚ
  totalGridExportKwhApprox : ℚ
  totalBatteryChargeKwhApprox : ℚ
  totalBatteryDischargeKwhApprox : ℚ
  deriving DecidableEq

/-- The `deltas` record of `ReplayResult`. -/
structure ReplayDeltas where
  endSocPct : ℚ
  gridImportKwh : ℚ
  batteryDischargeKwh : ℚ
  deriving DecidableEq

/-- `ReplayResult` from the replay module. -/
structure ReplayResult where
  actual : ReplaySummary
  replay : ReplaySummary
  deltas : ReplayDeltas
  modeUsed : String
  reserveUsed : ℚ
  deriving DecidableEq

/-- `RunningTotals` from the replay module. -/
structure RunningTotals where
  gridImport : ℚ
  gridExport : ℚ
  batteryCharge : ℚ
  batteryDischarge : ℚ
  deriving DecidableEq

/-- The result of one replay step (`nextSocPct`, `gridKw`, `batteryKw`). -/
structure StepResult where
  nextSocPct : ℚ
  gridKw : ℚ
  batteryKw : ℚ
  deriving DecidableEq

/-- `computeEnergyBounds(socPct, reservePct)` from the replay module:
charge/discharge power headroom for one 5-minute step at 13.5 kWh
capacity. -/
def computeEnergyBounds (socPct reservePct : ℚ) : ℚ × ℚ :=
  let maxChargeKwh := ((100 - socPct) / 100) * 13.5
  let maxDischargeKwh := ((socPct - reservePct) / 100) * 13.5
  (max 0 (maxChargeKwh / (5 / 60)), max 0 (maxDischargeKwh / (5 / 60)))

/-- `applyEnergyStep(batteryKw, solarKw, homeKw, socPct, reservePct)` from
the replay module: bound battery power to ±5 kW, integrate SOC (clamped to
`[reservePct, 100]`) and compute grid power as the residual. -/
def applyEnergyStep (batteryKw solarKw homeKw socPct reservePct : ℚ) :
    StepResult :=
  let boundedBatteryKw := clampQ batteryKw (-5) 5
  let deltaSocPct := boundedBatteryKw * (5 / 60) / 13.5 * 100
  ⟨clampQ (socPct + deltaSocPct) reservePct 100,
   homeKw - solarKw + boundedBatteryKw,
   boundedBatteryKw⟩

/-- `accumulateTotals(totals, batteryKw, gridKw)` from the replay module. -/
def accumulateTotals (totals : RunningTotals) (batteryKw gridKw : ℚ) :
    RunningTotals :=
  ⟨totals.gridImport + max gridKw 0 * (5 / 60),
   totals.gridExport + max (-gridKw) 0 * (5 / 60),
   totals.batteryCharge + max batteryKw 0 * (5 / 60),
   totals.batteryDischarge + max (-batteryKw) 0 * (5 / 60)⟩

/-- `simulateSelfPoweredStep(sample, socPct, reservePct)` from the replay
module. -/
def simulateSelfPoweredStep (sample : StorySample)
    (socPct reservePct : ℚ) : StepResult :=
  let netSolarKw := sample.solarKw - sample.homeKw
  let bounds := computeEnergyBounds socPct reservePct
  let batteryKw :=
    if netSolarKw > 0 ∧ socPct < 100 then
      min netSolarKw (min 5 bounds.1)
    else if netSolarKw < 0 ∧ socPct > reservePct then
      -(min |netSolarKw| (min 5 bounds.2))
    else 0
  applyEnergyStep batteryKw sample.solarKw sample.homeKw socPct reservePct

/-- `simulateTimeBasedStep(sample, context, socPct, reservePct,
peakStartMin)` from the replay module. -/
def simulateTimeBasedStep (sample : StorySample)
    (context : ExplainContext) (socPct reservePct peakStartMin : ℚ) :
    StepResult :=
  let inPeak :=
    peakStartMin ≤ sample.ts ∧ sample.ts < context.peakWindow.endMin
  let inStorm := context.stormWatchEnabled ∧
    context.stormWatchWindow.startMin ≤ sample.ts ∧
    sample.ts < context.stormWatchWindow.endMin
  let bounds := computeEnergyBounds socPct reservePct
  let deficitKw := max 0 (sample.homeKw - sample.solarKw)
  if inPeak ∧ socPct > reservePct then
    applyEnergyStep (-(min (deficitKw + 0.35) (min 5 bounds.2)))
      sample.solarKw sample.homeKw socPct reservePct
  else if inStorm ∧ socPct < max reservePct 85 then
    applyEnergyStep (min (max 0 (deficitKw + 2.2)) (min 5 bounds.1))
      sample.solarKw sample.homeKw socPct reservePct
  else simulateSelfPoweredStep sample socPct reservePct

/-- `finalizeSummary(startSoc, endSoc, totals)` from the replay module. -/
def finalizeSummary (startSoc endSoc : ℚ) (totals : RunningTotals) :
    ReplaySummary :=
  ⟨roundDec 1 startSoc, roundDec 1 endSoc,
   roundDec 2 totals.gridImport, roundDec 2 totals.gridExport,
   roundDec 2 totals.batteryCharge, roundDec 2 totals.batteryDischarge⟩

/-- The `for (const sample of windowSamples)` loop of `replayWindow`:
fold one replay step per sample, threading SOC and the running totals. -/
def replayLoop (context : ExplainContext) (modeUsed : String)
    (reserveUsed peakStartMin : ℚ) :
    List StorySample → ℚ → RunningTotals → ℚ × RunningTotals
  | [], socPct, totals => (socPct, totals)
  | sample :: rest, socPct, totals =>
      let step :=
        if modeUsed = "Self-Powered" then
          simulateSelfPoweredStep sample socPct reserveUsed
        else
          simulateTimeBasedStep sample context socPct reserveUsed
            peakStartMin
      replayLoop context modeUsed reserveUsed peakStartMin rest
        step.nextSocPct (accumulateTotals totals step.batteryKw step.gridKw)

/-- `replayWindow(samplesAll, context, startMin, endMin, overrides)` from
the replay module. -/
def replayWindow (samplesAll : List StorySample)
    (context : ExplainContext) (startMin endMin : ℚ)
    (overrides : ReplayOverrides) : ReplayResult :=
  let windowSamples := getWindowSamples samplesAll startMin endMin
  let actualSummary := summarizeWindow windowSamples context
  let modeUsed := overrides.mode.getD context.mode
  let reserveUsed := overrides.backupReservePct.getD context.backupReservePct
  let peakStartMin := overrides.peakStartMin.getD context.peakWindow.startMin
  match windowSamples with
  | [] =>
      { actual := ⟨0, 0, 0, 0, 0, 0⟩
        replay := ⟨0, 0, 0, 0, 0, 0⟩
        deltas := ⟨0, 0, 0⟩
        modeUsed := modeUsed
        reserveUsed := reserveUsed }
  | first :: _ =>
      let run := replayLoop context modeUsed reserveUsed peakStartMin
        windowSamples first.socPct ⟨0, 0, 0, 0⟩
      let replaySummary := finalizeSummary first.socPct run.1 run.2
      { actual :=
          ⟨actualSummary.startSoc, actualSummary.endSoc,
           actualSummary.totalGridImportKwhApprox,
           actualSummary.totalGridExportKwhApprox,
           actualSummary.totalBatteryChargeKwhApprox,
           actualSummary.totalBatteryDischargeKwhApprox⟩
        replay := replaySummary
        deltas :=
          ⟨roundDec 1 (replaySummary.endSoc - actualSummary.endSoc),
           roundDec 2 (replaySummary.totalGridImportKwhApprox -
             actualSummary.totalGridImportKwhApprox),
           roundDec 2 (replaySummary.totalBatteryDischargeKwhApprox -
             actualSummary.totalBatteryDischargeKwhApprox)⟩
        modeUsed := modeUsed
        reserveUsed := reserveUsed }

/-! ### Arithmetic facts about `clampQ` and `roundDec` -/

theorem clampQ_le_right (x lo hi : ℚ) : clampQ x lo hi ≤ hi :=
  min_le_left _ _

theorem le_clampQ (x lo hi : ℚ) (h : lo ≤ hi) : lo ≤ clampQ x lo hi :=
  le_min h (le_max_left _ _)

theorem clampQ_eq_of (x lo hi : ℚ) (h1 : lo ≤ x) (h2 : x ≤ hi) :
    clampQ x lo hi = x := by
  unfold clampQ
  rw [max_eq_right h1, min_eq_right h2]

theorem roundDec_mono (d : ℕ) {x y : ℚ} (h : x ≤ y) :
    roundDec d x ≤ roundDec d y := by
  unfold roundDec
  have hpow : (0 : ℚ) < 10 ^ d := by positivity
  have hfl : round (x * 10 ^ d) ≤ round (y * 10 ^ d) := by
    rw [round_eq, round_eq]
    exact Int.floor_le_floor (by nlinarith)
  exact div_le_div_of_nonneg_right (by exact_mod_cast hfl) hpow.le

theorem abs_roundDec_sub (d : ℕ) (x : ℚ) :
    |roundDec d x - x| ≤ 1 / (2 * 10 ^ d) := by
  unfold roundDec
  have hpow : (0 : ℚ) < 10 ^ d := by positivity
  have h := abs_sub_round (x * 10 ^ d)
  rw [abs_sub_comm] at h
  have hx : (round (x * 10 ^ d) : ℚ) / 10 ^ d - x =
      ((round (x * 10 ^ d) : ℚ) - x * 10 ^ d) / 10 ^ d := by
    field_simp
    ring
  rw [hx, abs_div, abs_of_pos hpow, div_le_div_iff₀ hpow (by positivity)]
  nlinarith [abs_nonneg ((round (x * 10 ^ d) : ℚ) - x * 10 ^ d)]

/-- `x` is an exact `d`-decimal value. -/
def IsDec (d : ℕ) (x : ℚ) : Prop := ∃ m : ℤ, x * 10 ^ d = m

theorem isDec_roundDec (d : ℕ) (x : ℚ) : IsDec d (roundDec d x) := by
  refine ⟨round (x * 10 ^ d), ?_⟩
  unfold roundDec
  field_simp

theorem roundDec_eq_self {d : ℕ} {x : ℚ} (h : IsDec d x) :
    roundDec d x = x := by
  obtain ⟨m, hm⟩ := h
  unfold roundDec
  rw [hm, round_intCast]
  have hpow : (10 : ℚ) ^ d ≠ 0 := by positivity
  field_simp at hm ⊢
  linarith [hm]

theorem IsDec.add {d : ℕ} {x y : ℚ} (hx : IsDec d x) (hy : IsDec d y) :
    IsDec d (x + y) := by
  obtain ⟨m, hm⟩ := hx
  obtain ⟨n, hn⟩ := hy
  exact ⟨m + n, by push_cast; rw [add_mul, hm, hn]⟩

theorem IsDec.neg {d : ℕ} {x : ℚ} (hx : IsDec d x) : IsDec d (-x) := by
  obtain ⟨m, hm⟩ := hx
  exact ⟨-m, by push_cast; rw [neg_mul, hm]⟩

/-- Evaluate `roundDec` by sandwiching the scaled value around the chosen
integer. -/
theorem roundDec_eval {d : ℕ} {x : ℚ} (n : ℤ)
    (h1 : (n : ℚ) ≤ x * 10 ^ d + 1 / 2) (h2 : x * 10 ^ d + 1 / 2 < n + 1) :
    roundDec d x = (n : ℚ) / 10 ^ d := by
  unfold roundDec
  rw [round_eq]
  have hfl : ⌊x * 10 ^ d + 1 / 2⌋ = n :=
    Int.floor_eq_iff.mpr ⟨by exact_mod_cast h1, by exact_mod_cast h2⟩
  rw [hfl]

/-! ### Structure of the generated day -/

theorem buildFrom_power_balance (env : DayEnv) :
    ∀ (count index : ℕ) (socPct : ℚ) (s : StorySample),
      s ∈ buildFrom env index socPct count →
      |s.gridKw - (s.homeKw - s.solarKw + s.batteryKw)| ≤ 1 / 100 := by
  intro count
  induction count with
  | zero => intro index socPct s hs; simp [buildFrom] at hs
  | succ n ih =>
      intro index socPct s hs
      rw [buildFrom] at hs
      rcases List.mem_cons.mp hs with h | h
      · subst h
        show |roundDec 2 _ - _| ≤ 1 / 100
        refine le_trans (abs_roundDec_sub 2 _) ?_
        norm_num
      · exact ih _ _ _ h

theorem buildFrom_soc_bounds (env : DayEnv) :
    ∀ (count index : ℕ) (socPct : ℚ) (s : StorySample),
      s ∈ buildFrom env index socPct count →
      30 ≤ s.socPct ∧ s.socPct ≤ 100 := by
  intro count
  induction count with
  | zero => intro index socPct s hs; simp [buildFrom] at hs
  | succ n ih =>
      intro index socPct s hs
      rw [buildFrom] at hs
      rcases List.mem_cons.mp hs with h | h
      · subst h
        show 30 ≤ roundDec 1 (clampQ _ storyDayContext.backupReservePct 100) ∧
          roundDec 1 (clampQ _ storyDayContext.backupReservePct 100) ≤ 100
        have hres : storyDayContext.backupReservePct = 30 := rfl
        rw [hres]
        constructor
        · have h30 : roundDec 1 (30 : ℚ) = 30 :=
            roundDec_eq_self ⟨300, by norm_num⟩
          calc (30 : ℚ) = roundDec 1 30 := h30.symm
            _ ≤ _ := roundDec_mono 1 (le_clampQ _ _ _ (by norm_num))
        · have h100 : roundDec 1 (100 : ℚ) = 100 :=
            roundDec_eq_self ⟨1000, by norm_num⟩
          calc roundDec 1 (clampQ _ 30 100) ≤ roundDec 1 100 :=
              roundDec_mono 1 (clampQ_le_right _ _ _)
            _ = 100 := h100
      · exact ih _ _ _ h

theorem buildFrom_ts_lb (env : DayEnv) :
    ∀ (count index : ℕ) (socPct : ℚ) (s : StorySample),
      s ∈ buildFrom env index socPct count → (index : ℚ) * 5 ≤ s.ts := by
  intro count
  induction count with
  | zero => intro index socPct s hs; simp [buildFrom] at hs
  | succ n ih =>
      intro index socPct s hs
      rw [buildFrom] at hs
      rcases List.mem_cons.mp hs with h | h
      · subst h
        show (index : ℚ) * 5 ≤ (index : ℚ) * 5
        exact le_refl _
      · have h1 := ih (index + 1) _ s h
        have h2 : (index : ℚ) * 5 ≤ ((index + 1 : ℕ) : ℚ) * 5 := by
          push_cast
          linarith
        linarith

/-- C1: every sample stored by the story-day generator satisfies the power
balance `gridKw = homeKw - solarKw + batteryKw` to within 0.01 kW, for
every admissible day profile (hence for the actual generated day). -/
theorem storyDay_power_balance (env : DayEnv) (s : StorySample)
    (hs : s ∈ buildStoryDaySamples env) :
    |s.gridKw - (s.homeKw - s.solarKw + s.batteryKw)| ≤ 1 / 100 :=
  buildFrom_power_balance env 288 0 62 s hs

/-- C2: every sample stored by the story-day generator has its state of
charge inside `[backupReservePct, 100] = [30, 100]`: the SOC update clamps
into that interval and the stored value rounds it to one decimal. -/
theorem storyDay_soc_bounds (env : DayEnv) (s : StorySample)
    (hs : s ∈ buildStoryDaySamples env) :
    storyDayContext.backupReservePct ≤ s.socPct ∧ s.socPct ≤ 100 :=
  buildFrom_soc_bounds env 288 0 62 s hs

/-- A concrete admissible day profile (all shape values constant) used to
instantiate the environment-quantified theorems. -/
def constantDay : DayEnv := ⟨fun _ => 0, fun _ => 1⟩

theorem storyDay_power_balance_witness :
    |((storyStep constantDay 0 62).1.gridKw -
      ((storyStep constantDay 0 62).1.homeKw -
        (storyStep constantDay 0 62).1.solarKw +
        (storyStep constantDay 0 62).1.batteryKw))| ≤ 1 / 100 := by
  refine storyDay_power_balance constantDay _ ?_
  show _ ∈ buildFrom constantDay 0 62 288
  rw [show (288 : ℕ) = 287 + 1 from rfl, buildFrom]
  exact List.mem_cons_self _ _

theorem storyDay_soc_bounds_witness :
    storyDayContext.backupReservePct ≤ (storyStep constantDay 0 62).1.socPct ∧
      (storyStep constantDay 0 62).1.socPct ≤ 100 := by
  refine storyDay_soc_bounds constantDay _ ?_
  show _ ∈ buildFrom constantDay 0 62 288
  rw [show (288 : ℕ) = 287 + 1 from rfl, buildFrom]
  exact List.mem_cons_self _ _

/-! ### The first sample of the day and the replay of the window [0, 5) -/

/-- The home-load value stored in the first sample: the generator rounds
the clamped opaque curve at index 0; it lies in `[0.55, 3.6]` whatever the
day profile. -/
def homeFirst (env : DayEnv) : ℚ := roundDec 2 (clampQ (env.homeShape 0) 0.55 3.6)

theorem roundDec2_neg02 : roundDec 2 (-0.2 : ℚ) = -0.2 :=
  roundDec_eq_self ⟨-20, by norm_num⟩

theorem storyStep_zero (env : DayEnv) :
    storyStep env 0 62 =
      (⟨0, 0, homeFirst env, -0.2, homeFirst env - 0.2, 61.9⟩, 62 - 10 / 81) := by
  have hsolar : roundDec 2 (solarKwAt env (((0 : ℕ) : ℚ) * 5) 0) = 0 := by
    rw [show solarKwAt env (((0 : ℕ) : ℚ) * 5) 0 = 0 by
      unfold solarKwAt; norm_num]
    exact roundDec_eq_self ⟨0, by norm_num⟩
  have hhome : roundDec 2 (homeKwAt env (((0 : ℕ) : ℚ) * 5) 0) = homeFirst env := rfl
  have htarget : batteryTargetKw (((0 : ℕ) : ℚ) * 5) 62 0 (homeFirst env) = -0.2 := by
    unfold batteryTargetKw isInWindow storyDayContext
    norm_num
  have habs : |(1 / 5 : ℚ)| = 1 / 5 := abs_of_pos (by norm_num)
  have hclamp : clampBatteryBySoc (-0.2) 62 = -0.2 := by
    unfold clampBatteryBySoc storyDayContext
    norm_num [habs, inf_eq_left]
  have hd : IsDec 2 (homeFirst env) := isDec_roundDec 2 _
  have hsum : IsDec 2 (homeFirst env + -0.2) :=
    hd.add (⟨-20, by norm_num⟩ : IsDec 2 (-0.2))
  have hgrid : roundDec 2 (homeFirst env - 0 + -0.2) = homeFirst env - 0.2 := by
    rw [show homeFirst env - 0 + -0.2 = homeFirst env + -0.2 by ring]
    rw [roundDec_eq_self hsum]
    ring
  have hsoc : clampQ (62 + -0.2 * (5 / 60) / 13.5 * 100)
      storyDayContext.backupReservePct 100 = 62 - 10 / 81 := by
    have hres : storyDayContext.backupReservePct = 30 := rfl
    rw [hres, show (62 : ℚ) + -0.2 * (5 / 60) / 13.5 * 100 = 62 - 10 / 81 by norm_num]
    exact clampQ_eq_of _ _ _ (by norm_num) (by norm_num)
  have hround : roundDec 1 (62 - 10 / 81 : ℚ) = 61.9 := by
    rw [roundDec_eval 619 (by norm_num) (by norm_num)]
    norm_num
  simp only [storyStep, hsolar, hhome, htarget]
  rw [if_neg (by norm_num : ¬((-0.2 : ℚ) > 0 ∧
    ¬ isInWindow (((0 : ℕ) : ℚ) * 5) storyDayContext.stormWatchWindow))]
  rw [hclamp, roundDec2_neg02, hgrid, hsoc, hround]
  norm_num

theorem window_zero_five (env : DayEnv) :
    getWindowSamples (buildStoryDaySamples env) 0 5 =
      [⟨0, 0, homeFirst env, -0.2, homeFirst env - 0.2, 61.9⟩] := by
  unfold buildStoryDaySamples
  rw [show (288 : ℕ) = 287 + 1 from rfl, buildFrom]
  unfold getWindowSamples
  rw [List.filter_cons]
  rw [storyStep_zero]
  dsimp only
  rw [if_pos (by norm_num : (decide (min (0 : ℚ) 5 ≤ 0 ∧ (0 : ℚ) < max 0 5) = true))]
  rw [List.filter_eq_nil_iff.mpr ?_]
  intro s hs
  have hts := buildFrom_ts_lb env 287 1 (62 - 10 / 81) s hs
  simp only [decide_eq_true_eq, not_and, not_lt]
  intro _
  rw [show max (0 : ℚ) 5 = 5 by norm_num]
  norm_num at hts
  linarith

theorem homeFirst_lb (env : DayEnv) : (0.55 : ℚ) ≤ homeFirst env := by
  have h1 : roundDec 2 (0.55 : ℚ) = 0.55 := roundDec_eq_self ⟨55, by norm_num⟩
  calc (0.55 : ℚ) = roundDec 2 0.55 := h1.symm
    _ ≤ homeFirst env := roundDec_mono 2 (le_clampQ _ _ _ (by norm_num))

theorem homeFirst_ub (env : DayEnv) : homeFirst env ≤ 3.6 := by
  have h1 : roundDec 2 (3.6 : ℚ) = 3.6 := roundDec_eq_self ⟨360, by norm_num⟩
  calc homeFirst env ≤ roundDec 2 3.6 :=
      roundDec_mono 2 (clampQ_le_right _ _ _)
    _ = 3.6 := h1

def ambientOverrides : ReplayOverrides :=
  ⟨some 30, some "Time-Based Control", some 1020⟩

theorem selfStep_first (h : ℚ) (hlb : (0.55 : ℚ) ≤ h) (hub : h ≤ 3.6) :
    simulateSelfPoweredStep ⟨0, 0, h, -0.2, h - 0.2, 61.9⟩ 61.9 30 =
      ⟨clampQ (61.9 + -h * (5 / 60) / 13.5 * 100) 30 100, 0, -h⟩ := by
  simp only [simulateSelfPoweredStep, computeEnergyBounds, applyEnergyStep]
  rw [if_neg (by rintro ⟨h1, -⟩; linarith)]
  rw [if_pos ⟨by linarith, by norm_num⟩]
  rw [show max (0 : ℚ) ((61.9 - 30) / 100 * 13.5 / (5 / 60)) = 25839 / 500 by
    norm_num]
  rw [show min (5 : ℚ) (25839 / 500) = 5 by norm_num]
  rw [show |(0 : ℚ) - h| = h by rw [abs_of_nonpos (by linarith)]; ring]
  rw [min_eq_left (by linarith : h ≤ (5 : ℚ))]
  rw [clampQ_eq_of (-h) (-5) 5 (by linarith) (by linarith)]
  norm_num

theorem tbStep_first (h : ℚ) (hlb : (0.55 : ℚ) ≤ h) (hub : h ≤ 3.6) :
    simulateTimeBasedStep ⟨0, 0, h, -0.2, h - 0.2, 61.9⟩ storyDayContext
      61.9 30 1020 =
      ⟨clampQ (61.9 + -h * (5 / 60) / 13.5 * 100) 30 100, 0, -h⟩ := by
  simp only [simulateTimeBasedStep]
  rw [if_neg (by rintro ⟨⟨h1, -⟩, -⟩; norm_num at h1)]
  rw [if_neg (by rintro ⟨⟨-, h1, -⟩, -⟩ ; norm_num [storyDayContext] at h1)]
  exact selfStep_first h hlb hub

theorem replayLoop_first (h : ℚ) (hlb : (0.55 : ℚ) ≤ h) (hub : h ≤ 3.6) :
    replayLoop storyDayContext "Time-Based Control" 30 1020
      [⟨0, 0, h, -0.2, h - 0.2, 61.9⟩] 61.9 ⟨0, 0, 0, 0⟩ =
      (clampQ (61.9 + -h * (5 / 60) / 13.5 * 100) 30 100,
        ⟨0, 0, 0, h * (5 / 60)⟩) := by
  simp only [replayLoop]
  rw [if_neg (by decide : ¬("Time-Based Control" = "Self-Powered"))]
  rw [tbStep_first h hlb hub]
  simp only [accumulateTotals]
  rw [show max (-h) 0 = (0 : ℚ) from max_eq_right (by linarith)]
  rw [neg_neg, show max h 0 = h from max_eq_left (by linarith)]
  norm_num

theorem actual_single_discharge (h : ℚ) :
    (summarizeWindow [⟨0, 0, h, -0.2, h - 0.2, 61.9⟩]
      storyDayContext).totalBatteryDischargeKwhApprox = 1 / 50 := by
  simp only [summarizeWindow, List.map_cons, List.map_nil, List.sum_cons,
    List.sum_nil]
  rw [show max (-(-0.2 : ℚ)) 0 * (5 / 60) + 0 = 1 / 60 by norm_num]
  rw [roundDec_eval 2 (by norm_num) (by norm_num)]
  norm_num

theorem replay_zero_five_delta (env : DayEnv) :
    (replayWindow (buildStoryDaySamples env) storyDayContext 0 5
      ambientOverrides).deltas.batteryDischargeKwh =
      roundDec 2 (roundDec 2 (homeFirst env * (5 / 60)) - 1 / 50) := by
  have hlb := homeFirst_lb env
  have hub := homeFirst_ub env
  simp only [replayWindow]
  rw [window_zero_five]
  simp only [ambientOverrides, Option.getD_some]
  rw [replayLoop_first (homeFirst env) hlb hub]
  dsimp only [finalizeSummary]
  rw [actual_single_discharge (homeFirst env)]

/-- C3 counterexample: it is false that for every window of the generated
day, `replayWindow` with overrides exactly equal to the ambient context
(mode "Time-Based Control", reserve 30, peak start 1020) yields zero
deltas.  For the window `[0, 5)` of a concrete admissible day profile the
battery-discharge delta is 0.06 kWh: overnight the generator only
trickle-discharges 0.2 kW while the replay's self-powered fallback
discharges the whole home load. -/
theorem replay_ambient_zero_deltas_false :
    ¬ (∀ (env : DayEnv) (startMin endMin : ℚ),
      (replayWindow (buildStoryDaySamples env) storyDayContext startMin
        endMin ambientOverrides).deltas.endSocPct = 0 ∧
      (replayWindow (buildStoryDaySamples env) storyDayContext startMin
        endMin ambientOverrides).deltas.gridImportKwh = 0 ∧
      (replayWindow (buildStoryDaySamples env) storyDayContext startMin
        endMin ambientOverrides).deltas.batteryDischargeKwh = 0) := by
  intro hall
  have h3 := (hall constantDay 0 5).2.2
  rw [replay_zero_five_delta constantDay] at h3
  have hh : homeFirst constantDay = 1 := by
    unfold homeFirst constantDay
    rw [clampQ_eq_of _ _ _ (by norm_num) (by norm_num)]
    exact roundDec_eq_self ⟨100, by norm_num⟩
  rw [hh, show (1 : ℚ) * (5 / 60) = 1 / 12 by norm_num] at h3
  have hi : roundDec 2 ((1 : ℚ) / 12) = 8 / 100 := by
    rw [roundDec_eval 8 (by norm_num) (by norm_num)]
    norm_num
  rw [hi, show (8 : ℚ) / 100 - 1 / 50 = 6 / 100 by norm_num] at h3
  rw [roundDec_eq_self ⟨6, by norm_num⟩] at h3
  norm_num at h3

/-- C3 (amended): the replay policy does not reduce to the generation
policy even for matching parameters, so the deltas of `replayWindow` with
overrides exactly equal to the ambient context are not all zero.  For the
window `[0, 5)` the battery-discharge delta is at least 0.03 kWh for every
admissible day profile — in particular for the actual generated day. -/
theorem replay_ambient_discharge_delta_lb (env : DayEnv) :
    3 / 100 ≤ (replayWindow (buildStoryDaySamples env) storyDayContext 0 5
      ambientOverrides).deltas.batteryDischargeKwh := by
  rw [replay_zero_five_delta env]
  have hlb := homeFirst_lb env
  have hmono : roundDec 2 ((11 : ℚ) / 240) ≤
      roundDec 2 (homeFirst env * (5 / 60)) :=
    roundDec_mono 2 (by nlinarith)
  have heval : roundDec 2 ((11 : ℚ) / 240) = 5 / 100 := by
    rw [roundDec_eval 5 (by norm_num) (by norm_num)]
    norm_num
  rw [heval] at hmono
  have hinner : (3 : ℚ) / 100 ≤ roundDec 2 (homeFirst env * (5 / 60)) - 1 / 50 := by
    linarith
  calc (3 : ℚ) / 100 = roundDec 2 (3 / 100) :=
      (roundDec_eq_self ⟨3, by norm_num⟩).symm
    _ ≤ _ := roundDec_mono 2 hinner

theorem replay_ambient_discharge_delta_lb_witness :
    3 / 100 ≤ (replayWindow (buildStoryDaySamples constantDay)
      storyDayContext 0 5 ambientOverrides).deltas.batteryDischargeKwh :=
  replay_ambient_discharge_delta_lb constantDay

/-! ### Window filtering and the empty summary -/

/-- C7: `summarizeWindow` on the empty sample list returns the all-zero
summary for every context; being a total function of the embedding, it
cannot raise. -/
theorem summarizeWindow_nil (context : ExplainContext) :
    summarizeWindow [] context = ⟨0, 0, 0, 0, 0, 0, 0, 0⟩ := rfl

/-- C8 counterexample: `getWindowSamples` (the `samplesInWindow` operation
taking a sample list) does not snap or clamp its bounds before filtering:
for the single sample at `ts = 0` and the window `(-3, 2)` it keeps the
sample, while filtering by the snapped (`-5`, `0`), clamped (`0`, `0`)
normalized bounds would drop it. -/
theorem getWindowSamples_snap_false :
    ¬ (∀ (samples : List StorySample) (startMin endMin : ℚ),
      getWindowSamples samples startMin endMin =
        samples.filter fun sample =>
          decide (min (clampQ (clampToStep startMin 5) 0 (24 * 60))
              (clampQ (clampToStep endMin 5) 0 (24 * 60)) ≤ sample.ts ∧
            sample.ts < max (clampQ (clampToStep startMin 5) 0 (24 * 60))
              (clampQ (clampToStep endMin 5) 0 (24 * 60)))) := by
  intro hall
  have h := hall [⟨0, 0, 0, 0, 0, 50⟩] (-3) 2
  have h1 : getWindowSamples [(⟨0, 0, 0, 0, 0, 50⟩ : StorySample)] (-3) 2 =
      [⟨0, 0, 0, 0, 0, 50⟩] := by
    unfold getWindowSamples
    rw [List.filter_cons, if_pos (by norm_num : (decide (min (-3 : ℚ) 2 ≤ 0 ∧
      (0 : ℚ) < max (-3) 2) = true))]
    rfl
  have h2 : clampQ (clampToStep (-3) 5) 0 (24 * 60) = 0 := by
    unfold clampToStep
    rw [if_neg (by norm_num : ¬((5 : ℚ) ≤ 0))]
    rw [show round ((-3 : ℚ) / 5) = -1 by rw [round_eq]; norm_num [Int.floor_eq_iff]]
    unfold clampQ
    norm_num
  have h3 : clampQ (clampToStep 2 5) 0 (24 * 60) = 0 := by
    unfold clampToStep
    rw [if_neg (by norm_num : ¬((5 : ℚ) ≤ 0))]
    rw [show round ((2 : ℚ) / 5) = 0 by rw [round_eq]; norm_num [Int.floor_eq_iff]]
    norm_num
    unfold clampQ
    norm_num
  rw [h1, h2, h3] at h
  rw [List.filter_cons, if_neg (by norm_num)] at h
  simp at h

theorem clampToStep_grid (x : ℚ) (i : ℤ) (hx : x = 5 * i) :
    clampToStep x 5 = x := by
  unfold clampToStep
  rw [if_neg (by norm_num : ¬((5 : ℚ) ≤ 0))]
  rw [hx, show (5 : ℚ) * i / 5 = (i : ℚ) by field_simp, round_intCast]
  ring

/-- C8 (amended): `getWindowSamples` is the half-open filter by the
normalized — but neither snapped nor clamped — bounds
`[min(start, end), max(start, end))`; the grid-snapping and the clamping
into `[0, 1440]` happen only in `getSamplesInWindow`, which applies them
to both bounds before normalizing and filtering the generated day.  For
bounds already on the 5-minute grid and inside `[0, 1440]` the two
operations agree. -/
theorem windowFilter_characterization :
    (∀ (samples : List StorySample) (startMin endMin : ℚ),
      getWindowSamples samples startMin endMin =
        samples.filter fun sample =>
          decide (min startMin endMin ≤ sample.ts ∧
            sample.ts < max startMin endMin)) ∧
    (∀ (env : DayEnv) (startMin endMin : ℚ),
      getSamplesInWindow env startMin endMin =
        getWindowSamples (buildStoryDaySamples env)
          (clampQ (clampToStep startMin 5) 0 (24 * 60))
          (clampQ (clampToStep endMin 5) 0 (24 * 60))) ∧
    (∀ (env : DayEnv) (startMin endMin : ℚ) (i j : ℤ),
      startMin = 5 * i → 0 ≤ startMin → startMin ≤ 1440 →
      endMin = 5 * j → 0 ≤ endMin → endMin ≤ 1440 →
      getSamplesInWindow env startMin endMin =
        getWindowSamples (buildStoryDaySamples env) startMin endMin) := by
  refine ⟨fun _ _ _ => rfl, fun _ _ _ => rfl, ?_⟩
  intro env startMin endMin i j hsg hs0 hs1 heg he0 he1
  show getWindowSamples (buildStoryDaySamples env)
      (clampQ (clampToStep startMin 5) 0 (24 * 60))
      (clampQ (clampToStep endMin 5) 0 (24 * 60)) = _
  rw [clampToStep_grid startMin i hsg, clampToStep_grid endMin j heg]
  rw [clampQ_eq_of _ _ _ hs0 (by norm_num; linarith)]
  rw [clampQ_eq_of _ _ _ he0 (by norm_num; linarith)]

theorem windowFilter_characterization_witness :
    getSamplesInWindow constantDay 0 5 =
      getWindowSamples (buildStoryDaySamples constantDay) 0 5 :=
  windowFilter_characterization.2.2 constantDay 0 5 0 1 (by norm_num)
    (by norm_num) (by norm_num) (by norm_num) (by norm_num) (by norm_num)

/-- C9: `getWindowSamples` is symmetric in its bounds (swapping them gives
the same result), idempotent (filtering its own output with the same
bounds changes nothing), and order-preserving (the result is a sublist of
the input). -/
theorem getWindowSamples_algebra (samples : List StorySample)
    (startMin endMin : ℚ) :
    getWindowSamples samples startMin endMin =
      getWindowSamples samples endMin startMin ∧
    getWindowSamples (getWindowSamples samples startMin endMin) startMin
      endMin = getWindowSamples samples startMin endMin ∧
    (getWindowSamples samples startMin endMin).Sublist samples := by
  refine ⟨?_, ?_, List.filter_sublist samples⟩
  · unfold getWindowSamples
    rw [min_comm, max_comm]
  · unfold getWindowSamples
    rw [List.filter_filter]
    apply List.filter_congr
    intro sample _
    rw [Bool.and_self]

/-! ### Structure of the timeline pipeline -/

theorem ensureUniqueTimestamp_range (proposedTs : ℚ) (usedTs : List ℚ)
    (startMin endMin : ℚ) :
    startMin ≤ ensureUniqueTimestamp proposedTs usedTs startMin endMin ∧
      ensureUniqueTimestamp proposedTs usedTs startMin endMin ≤
        max startMin (endMin - 5) :=
  ⟨le_clampQ _ _ _ (le_max_left _ _), clampQ_le_right _ _ _⟩

theorem normalizePass_length (startMin endMin : ℚ) :
    ∀ (raws : List RawEvent) (usedTs : List ℚ) (index : ℕ),
      (normalizePass startMin endMin raws usedTs index).length =
        raws.length := by
  intro raws
  induction raws with
  | nil => intro usedTs index; rfl
  | cons rv rest ih =>
      intro usedTs index
      simp only [normalizePass, List.length_cons, ih]

theorem normalizePass_range (startMin endMin : ℚ) :
    ∀ (raws : List RawEvent) (usedTs : List ℚ) (index : ℕ)
      (ev : ExplainEvent),
      ev ∈ normalizePass startMin endMin raws usedTs index →
      startMin ≤ ev.tsMin ∧ ev.tsMin ≤ max startMin (endMin - 5) := by
  intro raws
  induction raws with
  | nil => intro usedTs index ev hev; simp [normalizePass] at hev
  | cons rv rest ih =>
      intro usedTs index ev hev
      rcases List.mem_cons.mp hev with h | h
      · subst h
        exact ensureUniqueTimestamp_range _ _ _ _
      · exact ih _ _ _ h

theorem normalizePass_shape (startMin endMin : ℚ) :
    ∀ (raws : List RawEvent) (usedTs : List ℚ) (index : ℕ)
      (ev : ExplainEvent),
      ev ∈ normalizePass startMin endMin raws usedTs index →
      ∃ rv ∈ raws, ev.title = rv.title ∧ ev.type = rv.type ∧
        ev.whatHappened = rv.whatHappened ∧ ev.reasons = rv.reasons := by
  intro raws
  induction raws with
  | nil => intro usedTs index ev hev; simp [normalizePass] at hev
  | cons rv rest ih =>
      intro usedTs index ev hev
      rcases List.mem_cons.mp hev with h | h
      · exact ⟨rv, List.mem_cons_self _ _, by subst h; exact rfl,
          by subst h; exact rfl, by subst h; exact rfl,
          by subst h; exact rfl⟩
      · obtain ⟨rv', hrv', hprops⟩ := ih _ _ _ h
        exact ⟨rv', List.mem_cons_of_mem _ hrv', hprops⟩

theorem normalizePass_surj (startMin endMin : ℚ) :
    ∀ (raws : List RawEvent) (usedTs : List ℚ) (index : ℕ)
      (rv : RawEvent), rv ∈ raws →
      ∃ ev ∈ normalizePass startMin endMin raws usedTs index,
        ev.title = rv.title ∧ ev.type = rv.type ∧
        ev.whatHappened = rv.whatHappened ∧ ev.reasons = rv.reasons := by
  intro raws
  induction raws with
  | nil => intro usedTs index rv hrv; simp at hrv
  | cons rv0 rest ih =>
      intro usedTs index rv hrv
      rcases List.mem_cons.mp hrv with h | h
      · subst h
        exact ⟨_, List.mem_cons_self _ _, rfl, rfl, rfl, rfl⟩
      · obtain ⟨ev, hev, hprops⟩ := ih _ _ _ h
        exact ⟨ev, List.mem_cons_of_mem _ hev, hprops⟩

theorem mem_insertEvent (x : ExplainEvent) :
    ∀ (l : List ExplainEvent) (z : ExplainEvent),
      z ∈ insertEvent x l ↔ z = x ∨ z ∈ l := by
  intro l
  induction l with
  | nil => intro z; simp [insertEvent]
  | cons y ys ih =>
      intro z
      unfold insertEvent
      split_ifs
      · simp
      · rw [List.mem_cons, List.mem_cons, ih z]
        tauto

theorem length_insertEvent (x : ExplainEvent) :
    ∀ l : List ExplainEvent, (insertEvent x l).length = l.length + 1 := by
  intro l
  induction l with
  | nil => rfl
  | cons y ys ih =>
      unfold insertEvent
      split_ifs
      · rfl
      · simp only [List.length_cons, ih]

theorem sortByTs_foldl_mem :
    ∀ (l acc : List ExplainEvent) (z : ExplainEvent),
      z ∈ l.foldl (fun a x => insertEvent x a) acc ↔ z ∈ acc ∨ z ∈ l := by
  intro l
  induction l with
  | nil => intro acc z; simp
  | cons y ys ih =>
      intro acc z
      simp only [List.foldl_cons, ih, mem_insertEvent, List.mem_cons]
      tauto

theorem mem_sortByTs (l : List ExplainEvent) (z : ExplainEvent) :
    z ∈ sortByTs l ↔ z ∈ l := by
  unfold sortByTs
  rw [sortByTs_foldl_mem]
  simp

theorem sortByTs_foldl_length :
    ∀ (l acc : List ExplainEvent),
      (l.foldl (fun a x => insertEvent x a) acc).length =
        acc.length + l.length := by
  intro l
  induction l with
  | nil => intro acc; simp
  | cons y ys ih =>
      intro acc
      simp only [List.foldl_cons, ih, length_insertEvent, List.length_cons]
      ring

theorem length_sortByTs (l : List ExplainEvent) :
    (sortByTs l).length = l.length := by
  unfold sortByTs
  rw [sortByTs_foldl_length]
  simp

theorem finalPass_length :
    ∀ (index : ℕ) (l : List ExplainEvent),
      (finalPass index l).length = l.length := by
  intro index l
  induction l generalizing index with
  | nil => rfl
  | cons ev rest ih => simp only [finalPass, List.length_cons, ih]

theorem finalPass_shape :
    ∀ (index : ℕ) (l : List ExplainEvent) (ev' : ExplainEvent),
      ev' ∈ finalPass index l →
      ∃ ev ∈ l, ev'.tsMin = ev.tsMin ∧ ev'.title = ev.title ∧
        ev'.type = ev.type ∧ ev'.whatHappened = ev.whatHappened ∧
        ev'.reasons = ev.reasons.map fun reason =>
          { reason with
            evidence :=
              (reason.evidence ++ [timeLabel ev.tsMin]).take 3 } := by
  intro index l
  induction l generalizing index with
  | nil => intro ev' hev'; simp [finalPass] at hev'
  | cons ev rest ih =>
      intro ev' hev'
      rcases List.mem_cons.mp hev' with h | h
      · exact ⟨ev, List.mem_cons_self _ _, by subst h; exact rfl,
          by subst h; exact rfl, by subst h; exact rfl,
          by subst h; exact rfl, by subst h; exact rfl⟩
      · obtain ⟨ev0, hev0, hprops⟩ := ih _ _ h
        exact ⟨ev0, List.mem_cons_of_mem _ hev0, hprops⟩

theorem finalPass_surj :
    ∀ (index : ℕ) (l : List ExplainEvent) (ev : ExplainEvent), ev ∈ l →
      ∃ ev' ∈ finalPass index l, ev'.tsMin = ev.tsMin ∧
        ev'.title = ev.title ∧ ev'.type = ev.type ∧
        ev'.whatHappened = ev.whatHappened ∧
        ev'.reasons = ev.reasons.map fun reason =>
          { reason with
            evidence :=
              (reason.evidence ++ [timeLabel ev.tsMin]).take 3 } := by
  intro index l
  induction l generalizing index with
  | nil => intro ev hev; simp at hev
  | cons ev0 rest ih =>
      intro ev hev
      rcases List.mem_cons.mp hev with h | h
      · subst h
        exact ⟨_, List.mem_cons_self _ _, rfl, rfl, rfl, rfl, rfl⟩
      · obtain ⟨ev', hev', hprops⟩ := ih _ _ h
        exact ⟨ev', List.mem_cons_of_mem _ hev', hprops⟩

theorem detectorEvents_length_le (samplesAll : List StorySample)
    (context : ExplainContext) (startMin endMin : ℚ) :
    (detectorEvents samplesAll context startMin endMin).length ≤ 6 := by
  have h1 : (peakEvents samplesAll context startMin endMin).length ≤ 1 := by
    simp only [peakEvents]
    split_ifs <;> simp
  have h2 : (stormEvents samplesAll context startMin endMin).length ≤ 1 := by
    simp only [stormEvents]
    split_ifs <;> simp
  have h3 : (chargeEvents samplesAll context startMin endMin).length ≤ 1 := by
    simp only [chargeEvents]
    split_ifs <;> simp
  have h4 : (dischargeEvents samplesAll context startMin
      endMin).length ≤ 1 := by
    simp only [dischargeEvents]
    split_ifs <;> simp
  have h5 : (exportEvents samplesAll context startMin endMin).length ≤ 1 := by
    simp only [exportEvents]
    rcases hasConsecutiveGridExport
      (getWindowSamples samplesAll startMin endMin) 3 with - | t <;> simp
  have h6 : (holdEvents samplesAll context startMin endMin).length ≤ 1 := by
    simp only [holdEvents]
    split_ifs <;> simp
  unfold detectorEvents
  simp only [List.length_append]
  omega

theorem rawEvents_length_le (samplesAll : List StorySample)
    (context : ExplainContext) (startMin endMin : ℚ) :
    (rawEvents samplesAll context startMin endMin).length ≤ 6 := by
  simp only [rawEvents]
  split_ifs
  · simp
  · exact detectorEvents_length_le samplesAll context startMin endMin

theorem rawEvents_ne_nil (samplesAll : List StorySample)
    (context : ExplainContext) (startMin endMin : ℚ) :
    rawEvents samplesAll context startMin endMin ≠ [] := by
  simp only [rawEvents]
  split_ifs with hd
  · simp
  · simpa using hd

/-- The deduplicated timestamps of a window with no previously used slots:
the fallback event proposed at the window start keeps exactly that
timestamp. -/
theorem ensureUnique_nil_start (startMin endMin : ℚ) :
    ensureUniqueTimestamp startMin [] startMin endMin = startMin := by
  simp only [ensureUniqueTimestamp, probeForward, probeBackward]
  norm_num
  rw [clampQ_eq_of _ _ _ (le_refl _) (le_max_left _ _),
    clampQ_eq_of _ _ _ (le_refl _) (le_max_left _ _)]

/-- The timeline is empty exactly when the window holds no samples. -/
theorem timeline_nil_iff (samplesAll : List StorySample)
    (context : ExplainContext) (startMin endMin : ℚ) :
    buildExplainTimeline samplesAll context startMin endMin = [] ↔
      getWindowSamples samplesAll startMin endMin = [] := by
  simp only [buildExplainTimeline]
  split_ifs with hemp
  · simpa using hemp
  · constructor
    · intro h
      exfalso
      have hlen := congrArg List.length h
      rw [finalPass_length, List.length_take, length_sortByTs,
        normalizePass_length] at hlen
      simp only [List.length_nil] at hlen
      have := rawEvents_ne_nil samplesAll context startMin endMin
      rcases Nat.min_eq_zero_iff.mp hlen with h10 | hzero
      · omega
      · exact this (List.length_eq_zero.mp hzero)
    · intro h
      exact absurd (List.isEmpty_iff.mpr h) (by simpa using hemp)

/-- C4 counterexample: `buildExplainTimeline` does not always return
pairwise-distinct, grid-aligned timestamps.  For the single sample at
`ts = 1231` and the window `[1231, 1236)` the peak and storm overlap
detectors both fire; the window has a single 5-minute slot, forward
probing overshoots it, and the final clamp returns the already-used
timestamp, so both events carry `tsMin = 1231` (which is, moreover, not a
multiple of 5). -/
theorem timeline_distinct_false :
    ¬ (∀ (samplesAll : List StorySample) (context : ExplainContext)
      (startMin endMin : ℚ),
      (buildExplainTimeline samplesAll context startMin endMin).length ≤ 10 ∧
      (∀ ev ∈ buildExplainTimeline samplesAll context startMin endMin,
        startMin ≤ ev.tsMin ∧ ev.tsMin < endMin ∧
        ∃ k : ℤ, ev.tsMin = 5 * k) ∧
      ((buildExplainTimeline samplesAll context startMin endMin).map
        (·.tsMin)).Nodup) := by
  intro hall
  have h := (hall [⟨1231, 0, 0, 0, 0, 50⟩] storyDayContext 1231 1236).2.2
  have hmap : ((buildExplainTimeline [⟨1231, 0, 0, 0, 0, 50⟩]
      storyDayContext 1231 1236).map (·.tsMin)) = [1231, 1231] := by
    norm_num [buildExplainTimeline, rawEvents, detectorEvents, peakEvents,
      stormEvents, chargeEvents, dischargeEvents, exportEvents, holdEvents,
      getWindowSamples, summarizeWindow, average, overlapsWindow,
      buildReason, findFirstSample, hasConsecutiveGridExport, exportLoop,
      ensureUniqueTimestamp, probeForward, probeBackward, clampQ,
      normalizePass, sortByTs, insertEvent, finalPass, storyDayContext,
      List.filter, List.isEmpty]
  rw [hmap] at h
  simp at h

/-- C4 (amended): `buildExplainTimeline` returns at most 10 events and
every event timestamp lies in `[startMin, max(startMin, endMin - 5)]` —
hence strictly inside `[startMin, endMin)` whenever `startMin < endMin`.
Timestamps need not be pairwise distinct (nor grid-aligned for unaligned
inputs): when the window has fewer free 5-minute slots than events,
forward probing overshoots the window, backward probing never runs
(overshot values were never recorded as used), and the final clamp reuses
the last slot. -/
theorem timeline_bounds (samplesAll : List StorySample)
    (context : ExplainContext) (startMin endMin : ℚ) :
    (buildExplainTimeline samplesAll context startMin endMin).length ≤ 10 ∧
    ∀ ev ∈ buildExplainTimeline samplesAll context startMin endMin,
      startMin ≤ ev.tsMin ∧ ev.tsMin ≤ max startMin (endMin - 5) ∧
      (startMin < endMin → ev.tsMin < endMin) := by
  constructor
  · simp only [buildExplainTimeline]
    split_ifs
    · simp
    · rw [finalPass_length, List.length_take]
      exact min_le_left _ _
  · intro ev hev
    simp only [buildExplainTimeline] at hev
    split_ifs at hev with hemp
    · simp at hev
    · obtain ⟨ev1, hev1, hts, -, -, -, -⟩ := finalPass_shape _ _ _ hev
      have hev2 := List.take_subset _ _ hev1
      rw [mem_sortByTs] at hev2
      have hrange := normalizePass_range startMin endMin _ _ _ _ hev2
      rw [hts]
      refine ⟨hrange.1, hrange.2, fun hlt => ?_⟩
      rcases max_cases startMin (endMin - 5) with ⟨hm, -⟩ | ⟨hm, -⟩
      · rw [hm] at hrange
        linarith [hrange.1, hrange.2]
      · rw [hm] at hrange
        linarith [hrange.2]

instance : Inhabited ExplainEvent := ⟨⟨"", 0, "", "", "", []⟩⟩

theorem mem_headI {l : List ExplainEvent} (h : l ≠ []) : l.headI ∈ l := by
  cases l with
  | nil => exact absurd rfl h
  | cons a l => exact List.mem_cons_self a l

theorem timeline_bounds_witness :
    (buildExplainTimeline [⟨0, 0, 0, 0, 0, 50⟩] storyDayContext 0
      5).length ≤ 10 ∧
    (0 : ℚ) ≤ ((buildExplainTimeline [⟨0, 0, 0, 0, 0, 50⟩] storyDayContext
      0 5).headI).tsMin := by
  have hws : getWindowSamples [(⟨0, 0, 0, 0, 0, 50⟩ : StorySample)] 0 5 =
      [⟨0, 0, 0, 0, 0, 50⟩] := by
    norm_num [getWindowSamples, List.filter]
  have hne : buildExplainTimeline [⟨0, 0, 0, 0, 0, 50⟩] storyDayContext 0
      5 ≠ [] := by
    rw [Ne, timeline_nil_iff, hws]
    simp
  exact ⟨(timeline_bounds [⟨0, 0, 0, 0, 0, 50⟩] storyDayContext 0 5).1,
    ((timeline_bounds [⟨0, 0, 0, 0, 0, 50⟩] storyDayContext 0 5).2 _
      (mem_headI hne)).1⟩

/-- C10: the timeline is empty exactly when the window holds no samples;
and when the window is nonempty but no detector fired, the fallback
"Stable operation" info event is emitted, anchored at the window start. -/
theorem timeline_fallback (samplesAll : List StorySample)
    (context : ExplainContext) (startMin endMin : ℚ) :
    (buildExplainTimeline samplesAll context startMin endMin = [] ↔
      getWindowSamples samplesAll startMin endMin = []) ∧
    (getWindowSamples samplesAll startMin endMin ≠ [] →
      detectorEvents samplesAll context startMin endMin = [] →
      ∃ ev ∈ buildExplainTimeline samplesAll context startMin endMin,
        ev.title = "Stable operation" ∧ ev.type = "info" ∧
        ev.tsMin = startMin) := by
  refine ⟨timeline_nil_iff samplesAll context startMin endMin, ?_⟩
  intro hws hdet
  simp only [buildExplainTimeline]
  rw [if_neg (by simpa using hws)]
  simp only [rawEvents, hdet, List.isEmpty_nil, if_pos]
  simp only [normalizePass, sortByTs, List.foldl_cons, List.foldl_nil,
    insertEvent, List.take_succ_cons, List.take_nil, finalPass]
  refine ⟨_, List.mem_cons_self _ _, rfl, rfl, ?_⟩
  exact ensureUnique_nil_start startMin endMin

theorem timeline_fallback_witness :
    (buildExplainTimeline [⟨0, 0, 0, 0, 0, 50⟩] storyDayContext 0 5 = [] ↔
      getWindowSamples [⟨0, 0, 0, 0, 0, 50⟩] 0 5 = []) ∧
    (∃ ev ∈ buildExplainTimeline [⟨0, 0, 0, 0, 0, 50⟩] storyDayContext 0 5,
      ev.title = "Stable operation" ∧ ev.type = "info" ∧
      ev.tsMin = 0) := by
  refine ⟨(timeline_fallback [⟨0, 0, 0, 0, 0, 50⟩] storyDayContext 0 5).1,
    (timeline_fallback [⟨0, 0, 0, 0, 0, 50⟩] storyDayContext 0 5).2 ?_ ?_⟩
  · norm_num [getWindowSamples, List.filter]
  · norm_num [detectorEvents, peakEvents, stormEvents, chargeEvents,
      dischargeEvents, exportEvents, holdEvents, getWindowSamples,
      summarizeWindow, average, overlapsWindow, buildReason,
      findFirstSample, hasConsecutiveGridExport, exportLoop,
      storyDayContext, List.filter]

/-- C6 counterexample: the event-time label is not always the final
evidence entry.  For the single sample at `ts = 1020` and the window
`[1020, 1025)` only the peak detector fires; its reason already has 3
evidence entries, and `[...evidence, label].slice(0, 3)` keeps the first
three — dropping the label instead of substituting it into the last
slot. -/
theorem evidence_label_false :
    ¬ (∀ (samplesAll : List StorySample) (context : ExplainContext)
      (startMin endMin : ℚ),
      ∀ ev ∈ buildExplainTimeline samplesAll context startMin endMin,
        ∀ r ∈ ev.reasons, r.evidence.length ≤ 3 ∧
          r.evidence.getLast? = some (timeLabel ev.tsMin)) := by
  intro hall
  have hproj : ((buildExplainTimeline [⟨1020, 0, 0, 0, 0, 50⟩]
      storyDayContext 1020 1025).map
      (fun ev => (ev.tsMin, ev.reasons.map
        (fun r => (r.evidence.length, r.evidence.getLast?))))) =
      [(1020,
        [(3, some "Battery average power was 0 kW in this selection.")])] := by
    norm_num [buildExplainTimeline, rawEvents, detectorEvents, peakEvents,
      stormEvents, chargeEvents, dischargeEvents, exportEvents, holdEvents,
      getWindowSamples, summarizeWindow, average, overlapsWindow,
      buildReason, findFirstSample, hasConsecutiveGridExport, exportLoop,
      ensureUniqueTimestamp, probeForward, probeBackward, clampQ,
      normalizePass, sortByTs, insertEvent, finalPass, storyDayContext,
      numToStr, roundDec, abs_zero, List.filter, List.isEmpty]
    rfl
  have hlen : (buildExplainTimeline [⟨1020, 0, 0, 0, 0, 50⟩]
      storyDayContext 1020 1025).length = 1 := by
    simpa using congrArg List.length hproj
  obtain ⟨ev, hev⟩ := List.length_eq_one.mp hlen
  rw [hev] at hproj
  simp only [List.map_cons, List.map_nil, List.cons.injEq, and_true,
    Prod.mk.injEq] at hproj
  obtain ⟨hts, hrs⟩ := hproj
  have hlenr : ev.reasons.length = 1 := by
    simpa using congrArg List.length hrs
  obtain ⟨r, hr⟩ := List.length_eq_one.mp hlenr
  rw [hr] at hrs
  simp only [List.map_cons, List.map_nil, List.cons.injEq, and_true,
    Prod.mk.injEq] at hrs
  have happ := (hall _ _ _ _ ev (hev ▸ List.mem_cons_self _ _) r
    (hr ▸ List.mem_cons_self _ _)).2
  rw [hts, hrs.2] at happ
  have heq : ("Battery average power was 0 kW in this selection." : String)
      = timeLabel 1020 := Option.some.inj happ
  have hl : timeLabel 1020 = "Event time: 5:00 PM." := by
    norm_num [timeLabel, minutesToLabel, normalizeMinute, jsRem, qtrunc,
      numToStr, padZeros]
    rfl
  rw [hl] at heq
  exact absurd heq (by decide)

theorem buildReason_evidence_le (code : ReasonCode) (evidence : List String)
    (confidence : Option Confidence) :
    (buildReason code evidence confidence).evidence.length ≤ 3 := by
  simp only [buildReason, List.length_take]
  exact min_le_left _ _

theorem peakEvents_reasons_cap (samplesAll : List StorySample)
    (context : ExplainContext) (startMin endMin : ℚ) :
    ∀ rv ∈ peakEvents samplesAll context startMin endMin,
      ∀ r ∈ rv.reasons, r.evidence.length ≤ 3 := by
  intro rv hrv
  simp only [peakEvents] at hrv
  split_ifs at hrv <;>
    first
    | (first
        | rw [List.mem_singleton.mp hrv]
        | rw [hrv]
       intro r hr
       simp only [List.mem_append, List.mem_singleton, List.mem_cons,
         List.not_mem_nil, or_false, false_or] at hr
       try
         first
         | (rcases hr with rfl | rfl <;>
             exact buildReason_evidence_le _ _ _)
         | (rcases hr with rfl
            exact buildReason_evidence_le _ _ _))
    | simp at hrv

theorem stormEvents_reasons_cap (samplesAll : List StorySample)
    (context : ExplainContext) (startMin endMin : ℚ) :
    ∀ rv ∈ stormEvents samplesAll context startMin endMin,
      ∀ r ∈ rv.reasons, r.evidence.length ≤ 3 := by
  intro rv hrv
  simp only [stormEvents] at hrv
  split_ifs at hrv <;>
    first
    | (first
        | rw [List.mem_singleton.mp hrv]
        | rw [hrv]
       intro r hr
       simp only [List.mem_append, List.mem_singleton, List.mem_cons,
         List.not_mem_nil, or_false, false_or] at hr
       try
         first
         | (rcases hr with rfl | rfl <;>
             exact buildReason_evidence_le _ _ _)
         | (rcases hr with rfl
            exact buildReason_evidence_le _ _ _))
    | simp at hrv

theorem chargeEvents_reasons_cap (samplesAll : List StorySample)
    (context : ExplainContext) (startMin endMin : ℚ) :
    ∀ rv ∈ chargeEvents samplesAll context startMin endMin,
      ∀ r ∈ rv.reasons, r.evidence.length ≤ 3 := by
  intro rv hrv
  simp only [chargeEvents] at hrv
  split_ifs at hrv <;>
    first
    | (first
        | rw [List.mem_singleton.mp hrv]
        | rw [hrv]
       intro r hr
       simp only [List.mem_append, List.mem_singleton, List.mem_cons,
         List.not_mem_nil, or_false, false_or] at hr
       try
         first
         | (rcases hr with rfl | rfl <;>
             exact buildReason_evidence_le _ _ _)
         | (rcases hr with rfl
            exact buildReason_evidence_le _ _ _))
    | simp at hrv

theorem dischargeEvents_reasons_cap (samplesAll : List StorySample)
    (context : ExplainContext) (startMin endMin : ℚ) :
    ∀ rv ∈ dischargeEvents samplesAll context startMin endMin,
      ∀ r ∈ rv.reasons, r.evidence.length ≤ 3 := by
  intro rv hrv
  simp only [dischargeEvents] at hrv
  split_ifs at hrv <;>
    first
    | (first
        | rw [List.mem_singleton.mp hrv]
        | rw [hrv]
       intro r hr
       simp only [List.mem_append, List.mem_singleton, List.mem_cons,
         List.not_mem_nil, or_false, false_or] at hr
       try
         first
         | (rcases hr with rfl | rfl <;>
             exact buildReason_evidence_le _ _ _)
         | (rcases hr with rfl
            exact buildReason_evidence_le _ _ _))
    | simp at hrv

theorem exportEvents_reasons_cap (samplesAll : List StorySample)
    (context : ExplainContext) (startMin endMin : ℚ) :
    ∀ rv ∈ exportEvents samplesAll context startMin endMin,
      ∀ r ∈ rv.reasons, r.evidence.length ≤ 3 := by
  intro rv hrv
  simp only [exportEvents] at hrv
  split at hrv
  next t heq =>
    rw [List.mem_singleton.mp hrv]
    intro r hr
    rcases List.mem_singleton.mp hr with rfl
    exact buildReason_evidence_le _ _ _
  next heq => simp at hrv

theorem holdEvents_reasons_cap (samplesAll : List StorySample)
    (context : ExplainContext) (startMin endMin : ℚ) :
    ∀ rv ∈ holdEvents samplesAll context startMin endMin,
      ∀ r ∈ rv.reasons, r.evidence.length ≤ 3 := by
  intro rv hrv
  simp only [holdEvents] at hrv
  split_ifs at hrv <;>
    first
    | (first
        | rw [List.mem_singleton.mp hrv]
        | rw [hrv]
       intro r hr
       simp only [List.mem_append, List.mem_singleton, List.mem_cons,
         List.not_mem_nil, or_false, false_or] at hr
       try
         first
         | (rcases hr with rfl | rfl <;>
             exact buildReason_evidence_le _ _ _)
         | (rcases hr with rfl
            exact buildReason_evidence_le _ _ _))
    | simp at hrv

/-- Every reason attached to a raw event is a `buildReason` result, so
its own evidence list is already capped at 3 entries. -/
theorem rawEvents_reasons_cap (samplesAll : List StorySample)
    (context : ExplainContext) (startMin endMin : ℚ) :
    ∀ rv ∈ rawEvents samplesAll context startMin endMin,
      ∀ r ∈ rv.reasons, r.evidence.length ≤ 3 := by
  intro rv hrv
  simp only [rawEvents] at hrv
  split_ifs at hrv with hd
  · rw [List.mem_singleton.mp hrv]
    intro r hr
    rcases List.mem_singleton.mp hr with rfl
    exact buildReason_evidence_le _ _ _
  · simp only [detectorEvents, List.mem_append] at hrv
    rcases hrv with ((((h | h) | h) | h) | h) | h
    · exact peakEvents_reasons_cap samplesAll context startMin endMin rv h
    · exact stormEvents_reasons_cap samplesAll context startMin endMin rv h
    · exact chargeEvents_reasons_cap samplesAll context startMin endMin rv h
    · exact dischargeEvents_reasons_cap samplesAll context startMin endMin
        rv h
    · exact exportEvents_reasons_cap samplesAll context startMin endMin rv h
    · exact holdEvents_reasons_cap samplesAll context startMin endMin rv h

/-- C6 (amended): for every returned event there is a raw detector event
whose reasons map onto the final ones: each reason's own evidence list is
capped at 3 entries (`buildReason` applies `slice(0, 3)`), the final
evidence is `[...evidence, timeLabel].slice(0, 3)` and so again holds at
most 3 entries; whenever a reason has at most 2 own evidence entries (the
source's two-entry reason templates) the event-time label is genuinely
appended as the final evidence line; but when the reason already has 3
own entries the final slice keeps the first three, dropping the label —
it is not substituted into the last slot. -/
theorem evidence_cap (samplesAll : List StorySample)
    (context : ExplainContext) (startMin endMin : ℚ) :
    ∀ ev ∈ buildExplainTimeline samplesAll context startMin endMin,
      (∀ r ∈ ev.reasons, r.evidence.length ≤ 3) ∧
      ∃ rv ∈ rawEvents samplesAll context startMin endMin,
        ev.reasons = rv.reasons.map (fun r0 =>
          { r0 with
            evidence := (r0.evidence ++ [timeLabel ev.tsMin]).take 3 }) ∧
        ∀ r0 ∈ rv.reasons,
          r0.evidence.length ≤ 3 ∧
          (r0.evidence.length ≤ 2 →
            (r0.evidence ++ [timeLabel ev.tsMin]).take 3 =
              r0.evidence ++ [timeLabel ev.tsMin] ∧
            ((r0.evidence ++ [timeLabel ev.tsMin]).take 3).getLast? =
              some (timeLabel ev.tsMin)) ∧
          (r0.evidence.length = 3 →
            (r0.evidence ++ [timeLabel ev.tsMin]).take 3 =
              r0.evidence) := by
  intro ev hev
  simp only [buildExplainTimeline] at hev
  split_ifs at hev
  · simp at hev
  · obtain ⟨ev1, hev1, hts, -, -, -, hreasons⟩ := finalPass_shape _ _ _ hev
    have hev2 := List.take_subset _ _ hev1
    rw [mem_sortByTs] at hev2
    obtain ⟨rv, hrv, -, -, -, hreas2⟩ :=
      normalizePass_shape _ _ _ _ _ _ hev2
    have hcap := rawEvents_reasons_cap samplesAll context startMin endMin
      rv hrv
    constructor
    · intro r hr
      rw [hreasons, hreas2] at hr
      obtain ⟨r0, hr0, hreq⟩ := List.mem_map.mp hr
      subst hreq
      show ((r0.evidence ++ [timeLabel ev1.tsMin]).take 3).length ≤ 3
      rw [List.length_take]
      exact min_le_left _ _
    · refine ⟨rv, hrv, ?_, ?_⟩
      · rw [hreasons, hreas2, hts]
      · intro r0 hr0
        refine ⟨hcap r0 hr0, ?_, ?_⟩
        · intro hle
          have hlen : (r0.evidence ++ [timeLabel ev.tsMin]).length ≤ 3 := by
            rw [List.length_append, List.length_singleton]
            omega
          exact ⟨List.take_of_length_le hlen,
            by rw [List.take_of_length_le hlen, List.getLast?_concat]⟩
        · intro h3
          exact List.take_left' h3

instance : Inhabited ExplainReason := ⟨⟨.HOLDING_CHARGE, "", .Low, []⟩⟩

theorem evidence_cap_witness :
    ((buildExplainTimeline [⟨0, 0, 0, -1, 0, 50⟩] storyDayContext 0
      5).headI.reasons.headI.evidence.length ≤ 3) := by
  have h50 : roundDec 1 (50 : ℚ) = 50 := roundDec_eq_self ⟨500, by norm_num⟩
  have hproj : ((buildExplainTimeline [⟨0, 0, 0, -1, 0, 50⟩]
      storyDayContext 0 5).map (fun ev => ev.reasons.length)) =
      [1] := by
    norm_num [h50, buildExplainTimeline, rawEvents, detectorEvents, peakEvents,
      stormEvents, chargeEvents, dischargeEvents, exportEvents, holdEvents,
      getWindowSamples, summarizeWindow, average, overlapsWindow,
      buildReason, findFirstSample, hasConsecutiveGridExport, exportLoop,
      ensureUniqueTimestamp, probeForward, probeBackward, clampQ,
      normalizePass, sortByTs, insertEvent, finalPass, storyDayContext,
      List.filter, List.isEmpty]
  have hlen : (buildExplainTimeline [⟨0, 0, 0, -1, 0, 50⟩]
      storyDayContext 0 5).length = 1 := by
    simpa using congrArg List.length hproj
  obtain ⟨ev, hev⟩ := List.length_eq_one.mp hlen
  rw [hev] at hproj
  simp only [List.map_cons, List.map_nil, List.cons.injEq, and_true]
    at hproj
  obtain ⟨r, hr⟩ := List.length_eq_one.mp hproj
  rw [hev]
  show ev.reasons.headI.evidence.length ≤ 3
  rw [hr]
  show r.evidence.length ≤ 3
  exact (evidence_cap [⟨0, 0, 0, -1, 0, 50⟩] storyDayContext 0 5
    ev (hev ▸ List.mem_cons_self _ _)).1 r (hr ▸ List.mem_cons_self _ _)

/-! ### The export-run detector: specification-level characterization -/

/-- Spec-level predicate: the first three elements exist and all register
grid export below −0.6 kW. -/
def isRun3 : List StorySample → Prop
  | a :: b :: c :: _ =>
      a.gridKw < -0.6 ∧ b.gridKw < -0.6 ∧ c.gridKw < -0.6
  | _ => False

instance : (l : List StorySample) → Decidable (isRun3 l)
  | [] => isFalse fun h => h
  | [_] => isFalse fun h => h
  | [_, _] => isFalse fun h => h
  | _ :: _ :: _ :: _ => inferInstanceAs (Decidable (_ ∧ _ ∧ _))

/-- Spec-level predicate: a run of at least 3 consecutive samples with
`gridKw < -0.6` starts at index `i`. -/
def runAt (l : List StorySample) (i : ℕ) : Prop := isRun3 (l.drop i)

instance (l : List StorySample) (i : ℕ) : Decidable (runAt l i) :=
  inferInstanceAs (Decidable (isRun3 _))

/-- The timestamp of the first sample of a suffix (0 for the empty one). -/
def headTs : List StorySample → ℚ
  | [] => 0
  | s :: _ => s.ts

/-- `t` is the timestamp of the first sample of the first (least-index)
export run of `l`. -/
def firstRunSpec (l : List StorySample) (t : ℚ) : Prop :=
  ∃ i, runAt l i ∧ (∀ j < i, ¬ runAt l j) ∧ t = headTs (l.drop i)

theorem runAt_cons_succ (x : StorySample) (l : List StorySample) (i : ℕ) :
    runAt (x :: l) (i + 1) ↔ runAt l i := by
  unfold runAt
  rw [List.drop_succ_cons]

theorem runAt_zero (l : List StorySample) : runAt l 0 = isRun3 l := by
  unfold runAt
  rw [List.drop_zero]

theorem not_isRun3_of_first {a : StorySample} (rest : List StorySample)
    (ha : ¬ a.gridKw < -0.6) : ¬ isRun3 (a :: rest) := by
  match rest with
  | [] => exact fun h => h
  | [_] => exact fun h => h
  | _ :: _ :: _ => exact fun h => ha h.1

theorem not_isRun3_of_second {a b : StorySample} (rest : List StorySample)
    (hb : ¬ b.gridKw < -0.6) : ¬ isRun3 (a :: b :: rest) := by
  match rest with
  | [] => exact fun h => h
  | _ :: _ => exact fun h => hb h.2.1

theorem not_isRun3_of_third {a b c : StorySample} (rest : List StorySample)
    (hc : ¬ c.gridKw < -0.6) : ¬ isRun3 (a :: b :: c :: rest) :=
  fun h => hc h.2.2

theorem firstRunSpec_shift (x : StorySample) (l : List StorySample)
    (t : ℚ) (h0 : ¬ runAt (x :: l) 0) :
    firstRunSpec (x :: l) t ↔ firstRunSpec l t := by
  constructor
  · rintro ⟨i, hrun, hleast, ht⟩
    cases i with
    | zero => exact absurd hrun h0
    | succ i' =>
        refine ⟨i', (runAt_cons_succ x l i').mp hrun, ?_, ?_⟩
        · intro j hj hc
          exact hleast (j + 1) (by omega) ((runAt_cons_succ x l j).mpr hc)
        · rw [ht, List.drop_succ_cons]
  · rintro ⟨i, hrun, hleast, ht⟩
    refine ⟨i + 1, (runAt_cons_succ x l i).mpr hrun, ?_, ?_⟩
    · intro j hj
      cases j with
      | zero => exact h0
      | succ j' =>
          intro hc
          exact hleast j' (by omega) ((runAt_cons_succ x l j').mp hc)
    · rw [ht, List.drop_succ_cons]

theorem exportLoop_char :
    ∀ (n : ℕ) (l : List StorySample), l.length ≤ n → ∀ t : ℚ,
      (hasConsecutiveGridExport l 3 = some t ↔ firstRunSpec l t) := by
  intro n
  induction n with
  | zero =>
      intro l hl t
      have : l = [] := List.length_eq_zero.mp (Nat.le_zero.mp hl)
      subst this
      simp only [hasConsecutiveGridExport, exportLoop]
      constructor
      · intro h
        exact absurd h (by simp)
      · rintro ⟨i, hrun, -, -⟩
        exact absurd hrun (by simp [runAt, isRun3, List.drop_nil])
  | succ m ih =>
      intro l hl t
      match l with
      | [] =>
          simp only [hasConsecutiveGridExport, exportLoop]
          constructor
          · intro h
            exact absurd h (by simp)
          · rintro ⟨i, hrun, -, -⟩
            exact absurd hrun (by simp [runAt, isRun3, List.drop_nil])
      | s :: r =>
          by_cases hs : s.gridKw < -0.6
          · -- first sample exports: the loop keeps state (1, some s.ts)
            have hL : hasConsecutiveGridExport (s :: r) 3 =
                exportLoop 3 r 1 (some s.ts) := by
              simp only [hasConsecutiveGridExport, exportLoop, if_pos hs]
              norm_num
            match r with
            | [] =>
                rw [hL]
                simp only [exportLoop]
                constructor
                · intro h
                  exact absurd h (by simp)
                · rintro ⟨i, hrun, -, -⟩
                  rcases i with - | - | i <;>
                    simp [runAt, isRun3, List.drop_nil] at hrun
            | s' :: r' =>
                by_cases hs' : s'.gridKw < -0.6
                · have hL2 : exportLoop 3 (s' :: r') 1 (some s.ts) =
                      exportLoop 3 r' 2 (some s.ts) := by
                    simp only [exportLoop, if_pos hs', Option.getD_some]
                    norm_num
                  match r' with
                  | [] =>
                      rw [hL, hL2]
                      simp only [exportLoop]
                      constructor
                      · intro h
                        exact absurd h (by simp)
                      · rintro ⟨i, hrun, -, -⟩
                        rcases i with - | - | - | i <;>
                          simp [runAt, isRun3, List.drop_nil] at hrun
                  | s'' :: r'' =>
                      by_cases hs'' : s''.gridKw < -0.6
                      · -- a run completes at the third sample
                        have hL3 : exportLoop 3 (s'' :: r'') 2 (some s.ts) =
                            some s.ts := by
                          simp only [exportLoop, if_pos hs'',
                            Option.getD_some]
                          norm_num
                        rw [hL, hL2, hL3]
                        have hrun0 : runAt (s :: s' :: s'' :: r'') 0 :=
                          ⟨hs, hs', hs''⟩
                        constructor
                        · intro h
                          refine ⟨0, hrun0, by omega, ?_⟩
                          rw [List.drop_zero]
                          exact (Option.some.inj h).symm
                        · rintro ⟨i, hrun, hleast, ht⟩
                          have hi : i = 0 := by
                            by_contra hne
                            exact hleast 0 (by omega) hrun0
                          subst hi
                          rw [List.drop_zero] at ht
                          rw [ht]
                          rfl
                      · -- the run is broken at the third sample
                        have hL3 : exportLoop 3 (s'' :: r'') 2 (some s.ts) =
                            hasConsecutiveGridExport r'' 3 := by
                          simp only [exportLoop,
                            hasConsecutiveGridExport, if_neg hs'']
                        rw [hL, hL2, hL3]
                        rw [ih r'' (by simp at hl ⊢; omega) t]
                        rw [show (s :: s' :: s'' :: r'' : List StorySample)
                            = s :: (s' :: s'' :: r'') from rfl]
                        rw [firstRunSpec_shift s _ t
                          (by rw [runAt_zero]
                              exact not_isRun3_of_third _ hs''),
                          firstRunSpec_shift s' _ t
                          (by rw [runAt_zero]
                              exact not_isRun3_of_second _ hs''),
                          firstRunSpec_shift s'' _ t
                          (by rw [runAt_zero]
                              exact not_isRun3_of_first _ hs'')]
                · -- run broken at the second sample
                  have hL2 : exportLoop 3 (s' :: r') 1 (some s.ts) =
                      hasConsecutiveGridExport r' 3 := by
                    simp only [exportLoop, hasConsecutiveGridExport,
                      if_neg hs']
                  rw [hL, hL2]
                  rw [ih r' (by simp at hl ⊢; omega) t]
                  rw [show (s :: s' :: r' : List StorySample)
                      = s :: (s' :: r') from rfl]
                  rw [firstRunSpec_shift s _ t
                    (by rw [runAt_zero]
                        exact not_isRun3_of_second _ hs'),
                    firstRunSpec_shift s' _ t
                    (by rw [runAt_zero]
                        exact not_isRun3_of_first _ hs')]
          · -- the first sample does not export
            have hL : hasConsecutiveGridExport (s :: r) 3 =
                hasConsecutiveGridExport r 3 := by
              simp only [hasConsecutiveGridExport, exportLoop, if_neg hs]
            rw [hL]
            rw [ih r (by simp at hl ⊢; omega) t]
            rw [firstRunSpec_shift s r t
              (by rw [runAt_zero]
                  exact not_isRun3_of_first _ hs)]

theorem export_isSome_iff (l : List StorySample) :
    (∃ t, hasConsecutiveGridExport l 3 = some t) ↔ ∃ i, runAt l i := by
  constructor
  · rintro ⟨t, ht⟩
    obtain ⟨i, hrun, -, -⟩ :=
      (exportLoop_char l.length l (le_refl _) t).mp ht
    exact ⟨i, hrun⟩
  · rintro ⟨i, hi⟩
    have hex : ∃ j, runAt l j := ⟨i, hi⟩
    refine ⟨headTs (l.drop (Nat.find hex)), ?_⟩
    exact (exportLoop_char l.length l (le_refl _) _).mpr
      ⟨Nat.find hex, Nat.find_spec hex,
        fun j hj => Nat.find_min hex hj, rfl⟩

theorem runAt_ne_nil {l : List StorySample} {i : ℕ} (h : runAt l i) :
    l ≠ [] := by
  intro hnil
  subst hnil
  simp only [runAt, List.drop_nil] at h
  exact h

theorem peakEvents_title (samplesAll : List StorySample)
    (context : ExplainContext) (startMin endMin : ℚ) :
    ∀ rv ∈ peakEvents samplesAll context startMin endMin,
      rv.title = "Peak rate period" := by
  intro rv hrv
  simp only [peakEvents] at hrv
  split_ifs at hrv <;>
    first
    | (rw [List.mem_singleton.mp hrv])
    | simp at hrv

theorem stormEvents_title (samplesAll : List StorySample)
    (context : ExplainContext) (startMin endMin : ℚ) :
    ∀ rv ∈ stormEvents samplesAll context startMin endMin,
      rv.title = "Storm Watch" := by
  intro rv hrv
  simp only [stormEvents] at hrv
  split_ifs at hrv <;>
    first
    | (rw [List.mem_singleton.mp hrv])
    | simp at hrv

theorem chargeEvents_title (samplesAll : List StorySample)
    (context : ExplainContext) (startMin endMin : ℚ) :
    ∀ rv ∈ chargeEvents samplesAll context startMin endMin,
      rv.title = "Battery charging" := by
  intro rv hrv
  simp only [chargeEvents] at hrv
  split_ifs at hrv <;>
    first
    | (rw [List.mem_singleton.mp hrv])
    | simp at hrv

theorem dischargeEvents_title (samplesAll : List StorySample)
    (context : ExplainContext) (startMin endMin : ℚ) :
    ∀ rv ∈ dischargeEvents samplesAll context startMin endMin,
      rv.title = "Battery discharging" := by
  intro rv hrv
  simp only [dischargeEvents] at hrv
  split_ifs at hrv <;>
    first
    | (rw [List.mem_singleton.mp hrv])
    | simp at hrv

theorem holdEvents_title (samplesAll : List StorySample)
    (context : ExplainContext) (startMin endMin : ℚ) :
    ∀ rv ∈ holdEvents samplesAll context startMin endMin,
      rv.title = "Holding battery level" := by
  intro rv hrv
  simp only [holdEvents] at hrv
  split_ifs at hrv <;>
    first
    | (rw [List.mem_singleton.mp hrv])
    | simp at hrv

theorem exportEvents_char (samplesAll : List StorySample)
    (context : ExplainContext) (startMin endMin : ℚ) :
    ∀ rv ∈ exportEvents samplesAll context startMin endMin,
      rv.title = "Exporting to grid" ∧
      hasConsecutiveGridExport
        (getWindowSamples samplesAll startMin endMin) 3 =
        some rv.proposedTsMin ∧
      rv.reasons.map (fun r => r.code) = [ReasonCode.EXPORTING_SURPLUS] ∧
      rv.reasons.map (fun r => r.confidence) =
        [if (summarizeWindow (getWindowSamples samplesAll startMin endMin)
            context).totalGridExportKwhApprox > 0.5 then Confidence.High
          else Confidence.Medium] := by
  intro rv hrv
  simp only [exportEvents] at hrv
  split at hrv
  next t heq =>
    rw [List.mem_singleton.mp hrv]
    exact ⟨rfl, by rw [heq], by simp [buildReason], by simp [buildReason]⟩
  next heq => simp at hrv

theorem exportEvents_of_some (samplesAll : List StorySample)
    (context : ExplainContext) (startMin endMin : ℚ) (t : ℚ)
    (h : hasConsecutiveGridExport
      (getWindowSamples samplesAll startMin endMin) 3 = some t) :
    ∃ rv ∈ exportEvents samplesAll context startMin endMin,
      rv.title = "Exporting to grid" := by
  simp only [exportEvents]
  split
  next t' heq => exact ⟨_, List.mem_cons_self _ _, rfl⟩
  next heq => rw [h] at heq; exact absurd heq (by simp)

theorem detector_export_mem (samplesAll : List StorySample)
    (context : ExplainContext) (startMin endMin : ℚ) :
    ∀ rv ∈ detectorEvents samplesAll context startMin endMin,
      rv.title = "Exporting to grid" →
      rv ∈ exportEvents samplesAll context startMin endMin := by
  intro rv hrv htitle
  simp only [detectorEvents, List.mem_append] at hrv
  rcases hrv with ((((h | h) | h) | h) | h) | h
  · have := peakEvents_title samplesAll context startMin endMin rv h
    rw [htitle] at this
    exact absurd this (by decide)
  · have := stormEvents_title samplesAll context startMin endMin rv h
    rw [htitle] at this
    exact absurd this (by decide)
  · have := chargeEvents_title samplesAll context startMin endMin rv h
    rw [htitle] at this
    exact absurd this (by decide)
  · have := dischargeEvents_title samplesAll context startMin endMin rv h
    rw [htitle] at this
    exact absurd this (by decide)
  · exact h
  · have := holdEvents_title samplesAll context startMin endMin rv h
    rw [htitle] at this
    exact absurd this (by decide)

theorem rawEvents_export_mem (samplesAll : List StorySample)
    (context : ExplainContext) (startMin endMin : ℚ) :
    ∀ rv ∈ rawEvents samplesAll context startMin endMin,
      rv.title = "Exporting to grid" →
      rv ∈ exportEvents samplesAll context startMin endMin := by
  intro rv hrv htitle
  simp only [rawEvents] at hrv
  split_ifs at hrv with hd
  · have hst : rv.title = "Stable operation" := by
      rw [List.mem_singleton.mp hrv]
    rw [htitle] at hst
    exact absurd hst (by decide)
  · exact detector_export_mem samplesAll context startMin endMin rv hrv
      htitle

theorem export_mem_rawEvents (samplesAll : List StorySample)
    (context : ExplainContext) (startMin endMin : ℚ) (rv : RawEvent)
    (h : rv ∈ exportEvents samplesAll context startMin endMin) :
    rv ∈ rawEvents samplesAll context startMin endMin := by
  have hdet : rv ∈ detectorEvents samplesAll context startMin endMin := by
    simp only [detectorEvents, List.mem_append]
    tauto
  simp only [rawEvents]
  rw [if_neg]
  · exact hdet
  · simp only [List.isEmpty_iff]
    exact List.ne_nil_of_mem hdet

theorem timeline_take_eq (samplesAll : List StorySample)
    (context : ExplainContext) (startMin endMin : ℚ) :
    ((sortByTs (normalizePass startMin endMin
      (rawEvents samplesAll context startMin endMin) [] 0)).take 10) =
      sortByTs (normalizePass startMin endMin
        (rawEvents samplesAll context startMin endMin) [] 0) := by
  apply List.take_of_length_le
  rw [length_sortByTs, normalizePass_length]
  exact le_trans (rawEvents_length_le samplesAll context startMin endMin)
    (by norm_num)

/-- C5: the timeline contains an "Exporting to grid" event if and only if
the window's samples contain a run of at least 3 consecutive samples with
grid power below −0.6 kW; the detector anchors the event at the first
sample of the first such run (`hasConsecutiveGridExport` returns exactly
that timestamp, and the raw event's proposed anchor is that value); the
event carries the single reason `EXPORTING_SURPLUS`, whose confidence is
High when the window summary's total grid export exceeds 0.5 kWh and
Medium otherwise. -/
theorem exporting_event_iff (samplesAll : List StorySample)
    (context : ExplainContext) (startMin endMin : ℚ) :
    ((∃ ev ∈ buildExplainTimeline samplesAll context startMin endMin,
        ev.title = "Exporting to grid") ↔
      ∃ i, runAt (getWindowSamples samplesAll startMin endMin) i) ∧
    (∀ t, hasConsecutiveGridExport
        (getWindowSamples samplesAll startMin endMin) 3 = some t →
      firstRunSpec (getWindowSamples samplesAll startMin endMin) t) ∧
    (∀ ev ∈ buildExplainTimeline samplesAll context startMin endMin,
      ev.title = "Exporting to grid" →
      ev.reasons.map (fun r => r.code) = [ReasonCode.EXPORTING_SURPLUS] ∧
      ev.reasons.map (fun r => r.confidence) =
        [if (summarizeWindow (getWindowSamples samplesAll startMin endMin)
            context).totalGridExportKwhApprox > 0.5 then Confidence.High
          else Confidence.Medium]) ∧
    (∀ rv ∈ detectorEvents samplesAll context startMin endMin,
      rv.title = "Exporting to grid" →
      hasConsecutiveGridExport
        (getWindowSamples samplesAll startMin endMin) 3 =
        some rv.proposedTsMin) := by
  refine ⟨⟨?_, ?_⟩, ?_, ?_, ?_⟩
  · -- an export event in the timeline yields a run
    rintro ⟨ev, hev, htitle⟩
    simp only [buildExplainTimeline] at hev
    split_ifs at hev with hemp
    · simp at hev
    · obtain ⟨ev1, hev1, -, htitle1, -, -, -⟩ := finalPass_shape _ _ _ hev
      have hev2 := List.take_subset _ _ hev1
      rw [mem_sortByTs] at hev2
      obtain ⟨rv, hrv, htitle2, -, -, -⟩ :=
        normalizePass_shape _ _ _ _ _ _ hev2
      have hrvtitle : rv.title = "Exporting to grid" := by
        rw [← htitle2, ← htitle1, htitle]
      have hrvexp := rawEvents_export_mem samplesAll context startMin
        endMin rv hrv hrvtitle
      have hsome :=
        (exportEvents_char samplesAll context startMin endMin rv hrvexp).2.1
      exact (export_isSome_iff _).mp ⟨_, hsome⟩
  · -- a run yields an export event in the timeline
    rintro ⟨i, hi⟩
    obtain ⟨t, ht⟩ := (export_isSome_iff _).mpr ⟨i, hi⟩
    obtain ⟨rv, hrv, hrvtitle⟩ :=
      exportEvents_of_some samplesAll context startMin endMin t ht
    have hrvraw := export_mem_rawEvents samplesAll context startMin endMin
      rv hrv
    obtain ⟨ev1, hev1, ht1, -, -, -⟩ :=
      normalizePass_surj startMin endMin _ [] 0 rv hrvraw
    have hev1s : ev1 ∈ (sortByTs (normalizePass startMin endMin
        (rawEvents samplesAll context startMin endMin) [] 0)).take 10 := by
      rw [timeline_take_eq, mem_sortByTs]
      exact hev1
    obtain ⟨ev', hev', -, htitle', -, -, -⟩ := finalPass_surj 0 _ ev1 hev1s
    have hws : ¬ (getWindowSamples samplesAll startMin
        endMin).isEmpty = true := by
      simpa using runAt_ne_nil hi
    refine ⟨ev', ?_, ?_⟩
    · simp only [buildExplainTimeline]
      rw [if_neg hws]
      exact hev'
    · rw [htitle', ht1, hrvtitle]
  · -- the anchor is the first sample of the first run
    intro t ht
    exact (exportLoop_char (getWindowSamples samplesAll startMin
      endMin).length _ (le_refl _) t).mp ht
  · -- reason code and confidence of the export event
    intro ev hev htitle
    simp only [buildExplainTimeline] at hev
    split_ifs at hev with hemp
    · simp at hev
    · obtain ⟨ev1, hev1, -, htitle1, -, -, hreas1⟩ :=
        finalPass_shape _ _ _ hev
      have hev2 := List.take_subset _ _ hev1
      rw [mem_sortByTs] at hev2
      obtain ⟨rv, hrv, htitle2, -, -, hreas2⟩ :=
        normalizePass_shape _ _ _ _ _ _ hev2
      have hrvtitle : rv.title = "Exporting to grid" := by
        rw [← htitle2, ← htitle1, htitle]
      have hrvexp := rawEvents_export_mem samplesAll context startMin
        endMin rv hrv hrvtitle
      have hchar := exportEvents_char samplesAll context startMin endMin
        rv hrvexp
      rw [hreas1, hreas2]
      constructor
      · rw [List.map_map]
        exact hchar.2.2.1
      · rw [List.map_map]
        exact hchar.2.2.2
  · -- the raw export event's proposed anchor is the loop's result
    intro rv hrv htitle
    exact (exportEvents_char samplesAll context startMin endMin rv
      (detector_export_mem samplesAll context startMin endMin rv hrv
        htitle)).2.1

theorem exporting_event_iff_witness :
    ∃ ev ∈ buildExplainTimeline
      [⟨0, 0, 0, 0, -1, 50⟩, ⟨5, 0, 0, 0, -1, 50⟩, ⟨10, 0, 0, 0, -1, 50⟩]
      storyDayContext 0 15, ev.title = "Exporting to grid" := by
  refine (exporting_event_iff
    [⟨0, 0, 0, 0, -1, 50⟩, ⟨5, 0, 0, 0, -1, 50⟩, ⟨10, 0, 0, 0, -1, 50⟩]
    storyDayContext 0 15).1.mpr ⟨0, ?_⟩
  have hws : getWindowSamples
      [⟨0, 0, 0, 0, -1, 50⟩, ⟨5, 0, 0, 0, -1, 50⟩, ⟨10, 0, 0, 0, -1, 50⟩]
      0 15 =
      [⟨0, 0, 0, 0, -1, 50⟩, ⟨5, 0, 0, 0, -1, 50⟩, ⟨10, 0, 0, 0, -1, 50⟩] := by
    norm_num [getWindowSamples, List.filter]
  rw [runAt_zero, hws]
  exact ⟨by norm_num, by norm_num, by norm_num⟩

end TeslaExplain
